import Mathlib

/-!
Page frames of the miniob buffer pool.

A shallow embedding of `src/observer/storage/buffer/frame.h` and `frame.cpp`:
the pin counter, the dirty flag and the latch bookkeeping of `Frame`, and the
equality and hash of `FrameId`.

Conventions of the embedding.

* The build embedded is the checked, concurrent one: `ASSERT` aborts the
  process when its condition is false and `lock_` is a real mutex.
* A member function becomes a function from the frame state to an `Outcome`:
  the call returned (`ok`), an assertion failed (`fatal`), or the call waits on
  `lock_` (`blocked`).  Every outcome carries the frame as the call left it.
* `pin_count_` is a 32-bit `int`; the atomic `++` and `--` wrap around.
* `debug_lock_` is taken and released inside each call, hence free at every
  call boundary, and `rwlock_` is never used; neither is a field of the model.
* Logging has no effect on the frame and is left out.
* `size_t` is 64 bits wide and `int` is 32 bits wide and signed; `PageNum`,
  which the spec calls an unsigned integer, is 32 bits wide.
-/

namespace Miniob

/-- Modelled from the spec: the `Page` type of `storage/buffer/page.h`, which is
not among the sources.  The spec describes it as a byte buffer together with a
page number and a log sequence number. -/
structure Page where
  page_num : Int
  lsn : Int
  data : List Nat
  deriving DecidableEq

/-- Fields of `class Frame` (frame.h, lines 107-122).  `lock_` records whether
the mutex is held; `write_locker_` is `0` when nobody holds the exclusive
latch. -/
structure Frame where
  dirty_ : Bool
  pin_count_ : Int
  acc_time_ : Nat
  file_desc_ : Int
  page_ : Page
  lock_ : Bool
  write_locker_ : Int
  read_lockers_ : Finset Int
  deriving DecidableEq

/-- Result of one call on a frame: the call returned the value `ret` (`ok`), a
check of the call failed and the process was aborted (`fatal`), or the call
waits on `lock_`, which another holder has to release first (`blocked`).  In
each case `s` is the frame at that point. -/
inductive Outcome (α : Type) where
  | ok (s : Frame) (ret : α)
  | fatal (s : Frame)
  | blocked (s : Frame)
  deriving DecidableEq

/-- Frame state a call leaves behind, whatever its outcome. -/
def Outcome.frame {α : Type} : Outcome α → Frame
  | .ok s _ => s
  | .fatal s => s
  | .blocked s => s

/-- Whether the call ended in a failed assertion. -/
def Outcome.isFatal {α : Type} : Outcome α → Bool
  | .fatal _ => true
  | _ => false

/-- Whether the call returned to its caller. -/
def Outcome.isOk {α : Type} : Outcome α → Bool
  | .ok _ _ => true
  | _ => false

/-- Sequencing of calls: the second call runs only if the first returned. -/
def Outcome.andThen {α β : Type} (o : Outcome α) (f : Frame → Outcome β) : Outcome β :=
  match o with
  | .ok s _ => f s
  | .fatal s => .fatal s
  | .blocked s => .blocked s

/-- Value of a 32-bit `int` after an arithmetic step whose exact result is `v`. -/
def int_wrap (v : Int) : Int := (v + 2147483648) % 4294967296 - 2147483648

/-- The stored pin count is a value of type `int`. -/
def Frame.wf (s : Frame) : Prop :=
  -2147483648 ≤ s.pin_count_ ∧ s.pin_count_ ≤ 2147483647

instance (s : Frame) : Decidable s.wf := by
  unfold Frame.wf; infer_instance

/-- A default-constructed frame (the member initialisers of frame.h:107-122).
The page has no initialiser; it is taken as zeroed, as after `clear_page`, and
no call of the model reads it. -/
def fresh : Frame :=
  { dirty_ := false, pin_count_ := 0, acc_time_ := 0, file_desc_ := -1,
    page_ := { page_num := 0, lsn := 0, data := [] },
    lock_ := false, write_locker_ := 0, read_lockers_ := ∅ }

/-- The exclusive holder as the spec sees it: `none` when `write_locker_` is `0`. -/
def Frame.write_owner (s : Frame) : Option Int :=
  if s.write_locker_ = 0 then none else some s.write_locker_

/-- `Frame::mark_dirty` (frame.h:68). -/
def mark_dirty (s : Frame) : Frame := { s with dirty_ := true }

/-- `Frame::clear_dirty` (frame.h:69). -/
def clear_dirty (s : Frame) : Frame := { s with dirty_ := false }

/-- `Frame::dirty` (frame.h:70). -/
def dirty (s : Frame) : Bool := s.dirty_

/-- `Frame::can_purge` (frame.h:74), a non-const member: returns the frame
together with the answer. -/
def can_purge (s : Frame) : Frame × Bool := (s, decide (s.pin_count_ = 0))

/-- `Frame::pin_count` (frame.h:87). -/
def pin_count (s : Frame) : Int := s.pin_count_

/-- `Frame::access` (frame.cpp:271); `now` is the reading of the monotonic clock. -/
def access (now : Nat) (s : Frame) : Frame := { s with acc_time_ := now }

/-- Modelled from the spec: the `ASSERT` macro of `common/log/log.h`, which is
not among the sources.  According to the spec (sections 4.4 and 7) a violated
check is a fatal, process-terminating assertion in the checked build: when
`cond` is false the call ends there, with the frame `s` as it then is;
otherwise the call goes on with `rest`. -/
def ASSERT {α : Type} (cond : Prop) [Decidable cond] (s : Frame) (rest : Outcome α) :
    Outcome α :=
  if cond then rest else .fatal s

/-- Modelled from the spec: `lock()` of `common::Mutex` (`common/lang/mutex.h`,
not among the sources), the mutual-exclusion primitive behind `lock_`.  The
argument tells whether the mutex is held.  A free mutex becomes held; on a held
mutex the caller waits, which is the answer `none`. -/
def Mutex.lock (held : Bool) : Option Bool :=
  if held then none else some true

/-- Modelled from the spec: `try_lock()` of `common::Mutex`.  It never waits: it
answers the new state of the mutex and whether the caller obtained it. -/
def Mutex.try_lock (held : Bool) : Bool × Bool :=
  if held then (true, false) else (true, true)

/-- Modelled from the spec: `unlock()` of `common::Mutex`; the mutex is free
afterwards. -/
def Mutex.unlock (_held : Bool) : Bool := false

/-- `Frame::pin` (frame.cpp:222-232). -/
def pin (s : Frame) : Outcome Unit :=
  let pin_count := int_wrap (s.pin_count_ + 1)
  .ok { s with pin_count_ := pin_count } ()

/-- `Frame::unpin` (frame.cpp:234-261). -/
def unpin (s : Frame) : Outcome Int :=
  ASSERT (0 < s.pin_count_) s <|
    let pin_count := int_wrap (s.pin_count_ - 1)
    let s1 : Frame := { s with pin_count_ := pin_count }
    if 0 = pin_count then
      ASSERT (s1.write_locker_ = 0) s1 <|
      ASSERT (s1.read_lockers_ = ∅) s1 <|
      .ok s1 pin_count
    else .ok s1 pin_count

/-- `Frame::write_latch(intptr_t)` (frame.cpp:70-97). -/
def write_latch (xid : Int) (s : Frame) : Outcome Unit :=
  ASSERT (0 < s.pin_count_) s <|
  ASSERT (s.write_locker_ ≠ xid) s <|
  ASSERT (xid ∉ s.read_lockers_) s <|
    match Mutex.lock s.lock_ with
    | none => .blocked s
    | some held => .ok { s with lock_ := held, write_locker_ := xid } ()

/-- `Frame::write_unlatch(intptr_t)` (frame.cpp:104-124). -/
def write_unlatch (xid : Int) (s : Frame) : Outcome Unit :=
  ASSERT (0 < s.pin_count_) s <|
  ASSERT (s.write_locker_ = xid) s <|
    .ok { s with write_locker_ := 0, lock_ := Mutex.unlock s.lock_ } ()

/-- `Frame::read_latch(intptr_t)` (frame.cpp:131-157). -/
def read_latch (xid : Int) (s : Frame) : Outcome Unit :=
  ASSERT (0 < s.pin_count_) s <|
  ASSERT (xid ∉ s.read_lockers_) s <|
  ASSERT (xid ≠ s.write_locker_) s <|
    let s1 : Frame := { s with read_lockers_ := insert xid s.read_lockers_ }
    match Mutex.lock s1.lock_ with
    | none => .blocked s1
    | some held => .ok { s1 with lock_ := held } ()

/-- `Frame::try_read_latch` (frame.cpp:159-190); `xid` is the value of
`get_default_debug_xid()` for the calling thread. -/
def try_read_latch (xid : Int) (s : Frame) : Outcome Bool :=
  ASSERT (0 < s.pin_count_) s <|
  ASSERT (xid ∉ s.read_lockers_) s <|
  ASSERT (xid ≠ s.write_locker_) s <|
    let ret := (Mutex.try_lock s.lock_).2
    let s1 : Frame := { s with lock_ := (Mutex.try_lock s.lock_).1 }
    if ret then .ok { s1 with read_lockers_ := insert xid s1.read_lockers_ } ret
    else .ok s1 ret

/-- `Frame::read_unlatch(intptr_t)` (frame.cpp:197-220). -/
def read_unlatch (xid : Int) (s : Frame) : Outcome Unit :=
  ASSERT (0 < s.pin_count_) s <|
  ASSERT (xid ∈ s.read_lockers_) s <|
    .ok { s with read_lockers_ := s.read_lockers_.erase xid,
                 lock_ := Mutex.unlock s.lock_ } ()

/-- `Frame::write_latch()` (frame.cpp:65-68); `ctx` is the value of
`get_default_debug_xid()` for the calling thread. -/
def write_latch_default (ctx : Int) (s : Frame) : Outcome Unit := write_latch ctx s

/-- `Frame::write_unlatch()` (frame.cpp:99-102). -/
def write_unlatch_default (ctx : Int) (s : Frame) : Outcome Unit := write_unlatch ctx s

/-- `Frame::read_latch()` (frame.cpp:126-129). -/
def read_latch_default (ctx : Int) (s : Frame) : Outcome Unit := read_latch ctx s

/-- `Frame::read_unlatch()` (frame.cpp:192-195). -/
def read_unlatch_default (ctx : Int) (s : Frame) : Outcome Unit := read_unlatch ctx s

/-- Calls on a frame, as they appear in a sequence of calls. -/
inductive Call where
  | pin
  | unpin
  | write_latch (xid : Int)
  | write_unlatch (xid : Int)
  | read_latch (xid : Int)
  | try_read_latch (xid : Int)
  | read_unlatch (xid : Int)
  | mark_dirty
  | clear_dirty
  | access (now : Nat)
  deriving DecidableEq

/-- Forget the value a call returned. -/
def Outcome.void {α : Type} : Outcome α → Outcome Unit
  | .ok s _ => .ok s ()
  | .fatal s => .fatal s
  | .blocked s => .blocked s

/-- Effect of one call of a sequence on the frame. -/
def Call.apply : Call → Frame → Outcome Unit
  | .pin, s => Miniob.pin s
  | .unpin, s => (Miniob.unpin s).void
  | .write_latch xid, s => Miniob.write_latch xid s
  | .write_unlatch xid, s => Miniob.write_unlatch xid s
  | .read_latch xid, s => Miniob.read_latch xid s
  | .try_read_latch xid, s => (Miniob.try_read_latch xid s).void
  | .read_unlatch xid, s => Miniob.read_unlatch xid s
  | .mark_dirty, s => .ok (Miniob.mark_dirty s) ()
  | .clear_dirty, s => .ok (Miniob.clear_dirty s) ()
  | .access now, s => .ok (Miniob.access now s) ()

/-- A sequence of calls, one after the other; it stops at the first call that
does not return. -/
def run : List Call → Frame → Outcome Unit
  | [], s => .ok s ()
  | c :: cs, s => (c.apply s).andThen (run cs)

/-- Whether every `pin` of the sequence finds a count below `INT_MAX`, so that
no increment wraps around. -/
def pins_in_range : List Call → Frame → Bool
  | [], _ => true
  | c :: cs, s =>
    (decide (c ≠ Call.pin) || decide (s.pin_count_ < 2147483647)) &&
      pins_in_range cs (c.apply s).frame

/-- No latch is recorded on the frame: no exclusive holder, no shared holder. -/
def Frame.unlatched (s : Frame) : Prop :=
  s.write_locker_ = 0 ∧ s.read_lockers_ = ∅

instance (s : Frame) : Decidable s.unlatched := by
  unfold Frame.unlatched; infer_instance

/-- The sequence consists of `pin` and `unpin` calls only. -/
def pin_unpin_only (cs : List Call) : Prop :=
  ∀ c ∈ cs, c = Call.pin ∨ c = Call.unpin

/-- Unlatched frame whose pin count is `INT_MAX`. -/
def pinnedMax : Frame := { fresh with pin_count_ := 2147483647 }

/-- Invariant of the pin counter and the latch bookkeeping: the count is a
non-negative `int`, and at count 0 no holder is recorded. -/
def Frame.pin_inv (s : Frame) : Prop :=
  0 ≤ s.pin_count_ ∧ s.pin_count_ ≤ 2147483647 ∧
    (s.pin_count_ = 0 → s.write_locker_ = 0 ∧ s.read_lockers_ = ∅)

/-- Frame pinned once and not latched. -/
def pinnedOnce : Frame := { fresh with pin_count_ := 1 }

/-- Pinned frame whose shared latch is held by identity `7`. -/
def pinnedReader : Frame :=
  { fresh with pin_count_ := 1, lock_ := true, read_lockers_ := {7} }

/-- Pinned frame whose exclusive latch is held by identity `5`. -/
def pinnedWriter : Frame :=
  { fresh with pin_count_ := 1, lock_ := true, write_locker_ := 5 }

/-- Frame pinned twice and not latched. -/
def pinnedTwice : Frame := { fresh with pin_count_ := 2 }

/-- Sequence of calls that wraps the counter back to 0 under a held latch. -/
def wrapAround : List Call :=
  [Call.pin, Call.write_latch 1] ++ List.replicate 4294967295 Call.pin

/-- Scenario behind the instance of C4: pin, write latch and unlatch, unpin. -/
def latchedRoundTrip : List Call :=
  [Call.pin, Call.write_latch 7, Call.mark_dirty, Call.write_unlatch 7, Call.unpin]

/-- No identity holds both latch types: a recorded exclusive holder is not
among the shared holders. -/
def Frame.latch_disjoint (s : Frame) : Prop :=
  s.write_locker_ ≠ 0 → s.write_locker_ ∉ s.read_lockers_

/-- Scenario A of the spec for caller identity `x`: pin, write latch, mark
dirty, write unlatch, unpin. -/
def scenario_a (x : Int) : List Call :=
  [Call.pin, Call.write_latch x, Call.mark_dirty, Call.write_unlatch x, Call.unpin]

/-- A value of the 32-bit type `int`. -/
def is_int (v : Int) : Prop := -2147483648 ≤ v ∧ v ≤ 2147483647

instance (v : Int) : Decidable (is_int v) := by
  unfold is_int; infer_instance

/-- Fields of `class FrameId` (frame.h:28-42); the structure constructor is the
constructor `FrameId(int file_desc, PageNum page_num)` (frame.cpp:18). -/
structure FrameId where
  file_desc_ : Int
  page_num_ : Int
  deriving DecidableEq

/-- Modelled from the spec: the type `PageNum` of `page_num_`, whose declaration
is not among the sources.  The spec's data model gives an identity a
`page_number: unsigned integer`; the hash keeps the 32 low bits for it, and the
model takes it to be an unsigned integer 32 bits wide. -/
def is_page_num (v : Int) : Prop := 0 ≤ v ∧ v ≤ 4294967295

instance (v : Int) : Decidable (is_page_num v) := by
  unfold is_page_num; infer_instance

/-- An identity is well formed when its file descriptor is an `int` (frame.h:40)
and its page number a `PageNum`. -/
def FrameId.wf (a : FrameId) : Prop := is_int a.file_desc_ ∧ is_page_num a.page_num_

instance (a : FrameId) : Decidable a.wf := by
  unfold FrameId.wf; infer_instance

/-- Conversion of an integer value to the 64-bit `size_t`: the value modulo
2^64, which leaves a value from 0 to 2^64 - 1 as it is. -/
def size_t_of_int (v : Int) : Nat := (v % 18446744073709551616).toNat

/-- `FrameId::equal_to` (frame.cpp:21-24). -/
def FrameId.equal_to (a other : FrameId) : Bool :=
  decide (a.file_desc_ = other.file_desc_) && decide (a.page_num_ = other.page_num_)

/-- `FrameId::operator==` (frame.cpp:26-29). -/
def FrameId.operator_eq (a other : FrameId) : Bool := a.equal_to other

/-- `FrameId::hash` (frame.cpp:31-34) for a 64-bit `size_t`: the file descriptor
is converted to `size_t` and shifted left by 32 within 64 bits, the page number
is converted to `size_t` by the usual arithmetic conversions, and the two are
combined by bitwise or. -/
def FrameId.hash (a : FrameId) : Nat :=
  ((size_t_of_int a.file_desc_ <<< 32) % 18446744073709551616) ||| size_t_of_int a.page_num_

/-- `FrameId::file_desc` (frame.cpp:36-39). -/
def FrameId.file_desc (a : FrameId) : Int := a.file_desc_

/-- `FrameId::page_num` (frame.cpp:40-43). -/
def FrameId.page_num (a : FrameId) : Int := a.page_num_

/-- `Frame::frame_id` (frame.h:57). -/
def frame_id (s : Frame) : FrameId := FrameId.mk s.file_desc_ s.page_.page_num

/-- The lock mirrors the bookkeeping and the latches exclude one another: the
lock is held exactly when a holder is recorded, and either there is an
exclusive holder and no shared holder, or there is no exclusive holder and at
most one shared holder. -/
def Frame.latch_serial (s : Frame) : Prop :=
  (s.lock_ = true ↔ (s.write_locker_ ≠ 0 ∨ s.read_lockers_ ≠ ∅)) ∧
    ((s.write_locker_ ≠ 0 ∧ s.read_lockers_ = ∅) ∨
      (s.write_locker_ = 0 ∧ s.read_lockers_.card ≤ 1))

/-- Pinned frame on which the shared holder `7` is recorded while the lock is
free. -/
def pinnedReaderUnlocked : Frame :=
  { fresh with pin_count_ := 1, lock_ := false, read_lockers_ := {7} }

/-- Whether every `pin` that the sequence gets to execute finds a count below
`INT_MAX`; the check ends where the sequence ends, at the first call that does
not return. -/
def no_pin_wraps : List Call → Frame → Bool
  | [], _ => true
  | c :: cs, s =>
    (decide (c ≠ Call.pin) || decide (s.pin_count_ < 2147483647)) &&
      (match c.apply s with
       | .ok s1 _ => no_pin_wraps cs s1
       | .fatal _ => true
       | .blocked _ => true)

/-- Pinned frame on which identity `5` is recorded as the exclusive holder while
the lock is free. -/
def pinnedWriterUnlocked : Frame :=
  { fresh with pin_count_ := 1, lock_ := false, write_locker_ := 5 }

/-! ## Arithmetic of the counter -/

theorem int_wrap_of_int (v : Int) (h1 : -2147483648 ≤ v) (h2 : v ≤ 2147483647) :
    int_wrap v = v := by
  unfold int_wrap; omega

/-! ## The calls as case distinctions -/

theorem unpin_cases (s : Frame) :
    unpin s =
      if ¬ (0 < s.pin_count_) then Outcome.fatal s
      else if int_wrap (s.pin_count_ - 1) = 0 then
        if ¬ (s.write_locker_ = 0) then
          Outcome.fatal { s with pin_count_ := int_wrap (s.pin_count_ - 1) }
        else if ¬ (s.read_lockers_ = ∅) then
          Outcome.fatal { s with pin_count_ := int_wrap (s.pin_count_ - 1) }
        else Outcome.ok { s with pin_count_ := int_wrap (s.pin_count_ - 1) }
          (int_wrap (s.pin_count_ - 1))
      else Outcome.ok { s with pin_count_ := int_wrap (s.pin_count_ - 1) }
        (int_wrap (s.pin_count_ - 1)) := by
  have e : (0 = int_wrap (s.pin_count_ - 1)) = (int_wrap (s.pin_count_ - 1) = 0) :=
    propext eq_comm
  simp only [unpin, ASSERT, e]
  by_cases h0 : 0 < s.pin_count_ <;> by_cases h1 : int_wrap (s.pin_count_ - 1) = 0 <;>
    by_cases h2 : s.write_locker_ = 0 <;> by_cases h3 : s.read_lockers_ = ∅ <;>
    simp [h0, h1, h2, h3]

theorem write_latch_cases (xid : Int) (s : Frame) :
    write_latch xid s =
      if ¬ (0 < s.pin_count_) then Outcome.fatal s
      else if ¬ (s.write_locker_ ≠ xid) then Outcome.fatal s
      else if ¬ (xid ∉ s.read_lockers_) then Outcome.fatal s
      else if s.lock_ then Outcome.blocked s
      else Outcome.ok { s with lock_ := true, write_locker_ := xid } () := by
  simp only [write_latch, ASSERT, Mutex.lock]
  by_cases h0 : 0 < s.pin_count_ <;> by_cases h1 : s.write_locker_ = xid <;>
    by_cases h2 : xid ∈ s.read_lockers_ <;> cases h3 : s.lock_ <;>
    simp [h0, h1, h2]

theorem write_unlatch_cases (xid : Int) (s : Frame) :
    write_unlatch xid s =
      if ¬ (0 < s.pin_count_) then Outcome.fatal s
      else if ¬ (s.write_locker_ = xid) then Outcome.fatal s
      else Outcome.ok { s with write_locker_ := 0, lock_ := false } () := by
  simp only [write_unlatch, ASSERT, Mutex.unlock]
  by_cases h0 : 0 < s.pin_count_ <;> by_cases h1 : s.write_locker_ = xid <;>
    simp [h0, h1]

theorem read_latch_cases (xid : Int) (s : Frame) :
    read_latch xid s =
      if ¬ (0 < s.pin_count_) then Outcome.fatal s
      else if ¬ (xid ∉ s.read_lockers_) then Outcome.fatal s
      else if ¬ (xid ≠ s.write_locker_) then Outcome.fatal s
      else if s.lock_ then
        Outcome.blocked { s with read_lockers_ := insert xid s.read_lockers_ }
      else Outcome.ok { s with read_lockers_ := insert xid s.read_lockers_, lock_ := true } () := by
  simp only [read_latch, ASSERT, Mutex.lock]
  by_cases h0 : 0 < s.pin_count_ <;> by_cases h1 : xid = s.write_locker_ <;>
    by_cases h2 : xid ∈ s.read_lockers_ <;> cases h3 : s.lock_ <;>
    simp [h0, h1, h2]

theorem try_read_latch_cases (xid : Int) (s : Frame) :
    try_read_latch xid s =
      if ¬ (0 < s.pin_count_) then Outcome.fatal s
      else if ¬ (xid ∉ s.read_lockers_) then Outcome.fatal s
      else if ¬ (xid ≠ s.write_locker_) then Outcome.fatal s
      else if s.lock_ then Outcome.ok s false
      else Outcome.ok
        { s with lock_ := true, read_lockers_ := insert xid s.read_lockers_ } true := by
  obtain ⟨d, p, a, f, pg, l, w, r⟩ := s
  by_cases h0 : 0 < p <;> by_cases h1 : xid = w <;> by_cases h2 : xid ∈ r <;> cases l <;>
    simp [try_read_latch, ASSERT, Mutex.try_lock, h0, h1, h2]

theorem read_unlatch_cases (xid : Int) (s : Frame) :
    read_unlatch xid s =
      if ¬ (0 < s.pin_count_) then Outcome.fatal s
      else if ¬ (xid ∈ s.read_lockers_) then Outcome.fatal s
      else Outcome.ok
        { s with read_lockers_ := s.read_lockers_.erase xid, lock_ := false } () := by
  simp only [read_unlatch, ASSERT, Mutex.unlock]
  by_cases h0 : 0 < s.pin_count_ <;> by_cases h2 : xid ∈ s.read_lockers_ <;>
    simp [h0, h2]

/-! ## Calls that return -/

theorem void_eq_ok {α : Type} (o : Outcome α) (s1 : Frame) :
    o.void = Outcome.ok s1 () ↔ ∃ r, o = Outcome.ok s1 r := by
  cases o <;> simp [Outcome.void]

theorem unpin_eq_ok (s s1 : Frame) (r : Int) :
    unpin s = Outcome.ok s1 r ↔
      0 < s.pin_count_ ∧ r = int_wrap (s.pin_count_ - 1) ∧ s1 = { s with pin_count_ := r } ∧
        (r = 0 → s.write_locker_ = 0 ∧ s.read_lockers_ = ∅) := by
  rw [unpin_cases]
  split_ifs <;> simp_all
  all_goals aesop

theorem write_latch_eq_ok (xid : Int) (s s1 : Frame) :
    write_latch xid s = Outcome.ok s1 () ↔
      0 < s.pin_count_ ∧ s.write_locker_ ≠ xid ∧ xid ∉ s.read_lockers_ ∧ s.lock_ = false ∧
        s1 = { s with lock_ := true, write_locker_ := xid } := by
  rw [write_latch_cases]
  split_ifs <;> simp_all
  all_goals aesop

theorem write_unlatch_eq_ok (xid : Int) (s s1 : Frame) :
    write_unlatch xid s = Outcome.ok s1 () ↔
      0 < s.pin_count_ ∧ s.write_locker_ = xid ∧
        s1 = { s with write_locker_ := 0, lock_ := false } := by
  rw [write_unlatch_cases]
  split_ifs <;> simp_all
  all_goals aesop

theorem read_latch_eq_ok (xid : Int) (s s1 : Frame) :
    read_latch xid s = Outcome.ok s1 () ↔
      0 < s.pin_count_ ∧ xid ∉ s.read_lockers_ ∧ xid ≠ s.write_locker_ ∧ s.lock_ = false ∧
        s1 = { s with read_lockers_ := insert xid s.read_lockers_, lock_ := true } := by
  rw [read_latch_cases]
  split_ifs <;> simp_all
  all_goals aesop

theorem try_read_latch_eq_ok (xid : Int) (s s1 : Frame) (r : Bool) :
    try_read_latch xid s = Outcome.ok s1 r ↔
      0 < s.pin_count_ ∧ xid ∉ s.read_lockers_ ∧ xid ≠ s.write_locker_ ∧ r = !s.lock_ ∧
        s1 = (if s.lock_ then s
              else { s with lock_ := true, read_lockers_ := insert xid s.read_lockers_ }) := by
  rw [try_read_latch_cases]
  split_ifs <;> simp_all
  all_goals aesop

theorem read_unlatch_eq_ok (xid : Int) (s s1 : Frame) :
    read_unlatch xid s = Outcome.ok s1 () ↔
      0 < s.pin_count_ ∧ xid ∈ s.read_lockers_ ∧
        s1 = { s with read_lockers_ := s.read_lockers_.erase xid, lock_ := false } := by
  rw [read_unlatch_cases]
  split_ifs <;> simp_all
  all_goals aesop

theorem write_owner_eq_none (s : Frame) : s.write_owner = none ↔ s.write_locker_ = 0 := by
  unfold Frame.write_owner
  split_ifs with h <;> simp [h]

theorem write_owner_eq_some (s : Frame) (x : Int) (hx : x ≠ 0) :
    s.write_owner = some x ↔ s.write_locker_ = x := by
  unfold Frame.write_owner
  split_ifs with h
  · simp only [false_iff]
    intro h1
    exact hx (h1 ▸ h)
  · simp

theorem pin_fresh : pin fresh = Outcome.ok pinnedOnce () := by decide

theorem write_latch_pinnedOnce (x : Int) (hx : x ≠ 0) :
    write_latch x pinnedOnce =
      Outcome.ok { pinnedOnce with lock_ := true, write_locker_ := x } () := by
  rw [write_latch_eq_ok]
  refine ⟨by decide, ?_, by simp [pinnedOnce, fresh], rfl, rfl⟩
  exact fun h => hx h.symm

theorem read_latch_pinnedOnce (x : Int) (hx : x ≠ 0) :
    read_latch x pinnedOnce =
      Outcome.ok { pinnedOnce with read_lockers_ := {x}, lock_ := true } () := by
  rw [read_latch_eq_ok]
  exact ⟨by decide, by simp [pinnedOnce, fresh], hx, rfl, rfl⟩

/-! ## Sequences of calls -/

theorem run_cons (c : Call) (cs : List Call) (s : Frame) :
    run (c :: cs) s = (c.apply s).andThen (run cs) := rfl

theorem run_append (as bs : List Call) (s : Frame) :
    run (as ++ bs) s = (run as s).andThen (run bs) := by
  induction as generalizing s with
  | nil => rfl
  | cons c cs ih =>
    simp only [List.cons_append, run_cons]
    cases c.apply s <;> simp [Outcome.andThen, ih]

theorem pin_apply_of_lt (s : Frame) (h1 : 0 ≤ s.pin_count_) (h2 : s.pin_count_ < 2147483647) :
    Call.pin.apply s = Outcome.ok { s with pin_count_ := s.pin_count_ + 1 } () := by
  show pin s = _
  simp only [pin]
  rw [int_wrap_of_int _ (by omega) (by omega)]

theorem unpin_apply_of_unlatched (s : Frame) (hl : s.unlatched) (h1 : 0 < s.pin_count_)
    (h2 : s.pin_count_ ≤ 2147483647) :
    Call.unpin.apply s = Outcome.ok { s with pin_count_ := s.pin_count_ - 1 } () := by
  show (unpin s).void = _
  rw [unpin_cases]
  rw [int_wrap_of_int _ (by omega) (by omega)]
  obtain ⟨hw, hr⟩ := hl
  simp only [h1, not_true_eq_false, if_false, hw, hr]
  split_ifs <;> rfl

theorem pin_eq_ok (s s1 : Frame) :
    pin s = Outcome.ok s1 () ↔ s1 = { s with pin_count_ := int_wrap (s.pin_count_ + 1) } := by
  simp only [pin]
  constructor
  · intro h
    cases h
    rfl
  · intro h
    rw [h]

/-- Induction along a sequence of calls that all return. -/
theorem run_induction (P : Frame → Prop) (allowed : Call → Prop)
    (hstep : ∀ (c : Call) (s s1 : Frame), allowed c → P s →
      c.apply s = Outcome.ok s1 () → P s1) :
    ∀ (cs : List Call) (s s1 : Frame), (∀ c ∈ cs, allowed c) → P s →
      run cs s = Outcome.ok s1 () → P s1 := by
  intro cs
  induction cs with
  | nil =>
    intro s s1 _ hP hrun
    simp only [run] at hrun
    cases hrun
    exact hP
  | cons c cs ih =>
    intro s s1 hall hP hrun
    rw [run_cons] at hrun
    cases hc : c.apply s with
    | ok s2 u =>
      rw [hc] at hrun
      cases u
      exact ih s2 s1 (fun d hd => hall d (List.mem_cons_of_mem c hd))
        (hstep c s s2 (hall c (List.mem_cons_self c cs)) hP hc) hrun
    | fatal s2 => rw [hc] at hrun; simp [Outcome.andThen] at hrun
    | blocked s2 => rw [hc] at hrun; simp [Outcome.andThen] at hrun

theorem latch_disjoint_step (c : Call) (s s1 : Frame) (hinv : s.latch_disjoint)
    (hstep : c.apply s = Outcome.ok s1 ()) : s1.latch_disjoint := by
  unfold Frame.latch_disjoint at hinv ⊢
  cases c with
  | pin =>
    rw [show Call.pin.apply s = pin s from rfl, pin_eq_ok] at hstep
    subst hstep
    exact hinv
  | unpin =>
    obtain ⟨r, hr⟩ := (void_eq_ok _ _).1 hstep
    obtain ⟨_, _, hs1, _⟩ := (unpin_eq_ok _ _ _).1 hr
    subst hs1
    exact hinv
  | write_latch xid =>
    obtain ⟨_, _, hx, _, hs1⟩ := (write_latch_eq_ok _ _ _).1 hstep
    subst hs1
    exact fun _ => hx
  | write_unlatch xid =>
    obtain ⟨_, _, hs1⟩ := (write_unlatch_eq_ok _ _ _).1 hstep
    subst hs1
    exact fun h => absurd rfl h
  | read_latch xid =>
    obtain ⟨_, _, hx, _, hs1⟩ := (read_latch_eq_ok _ _ _).1 hstep
    subst hs1
    intro hw
    simp only [Finset.mem_insert, not_or]
    exact ⟨fun h => hx h.symm, hinv hw⟩
  | try_read_latch xid =>
    obtain ⟨r, hr⟩ := (void_eq_ok _ _).1 hstep
    obtain ⟨_, _, hx, _, hs1⟩ := (try_read_latch_eq_ok _ _ _ _).1 hr
    subst hs1
    split_ifs
    · exact hinv
    · intro hw
      simp only [Finset.mem_insert, not_or]
      exact ⟨fun h => hx h.symm, hinv hw⟩
  | read_unlatch xid =>
    obtain ⟨_, _, hs1⟩ := (read_unlatch_eq_ok _ _ _).1 hstep
    subst hs1
    intro hw
    simp only [Finset.mem_erase, not_and]
    exact fun _ => hinv hw
  | mark_dirty =>
    cases hstep
    exact hinv
  | clear_dirty =>
    cases hstep
    exact hinv
  | access now =>
    cases hstep
    exact hinv

/-! ## The hash of an identity -/

theorem hash_high_word (fd : Int) :
    (size_t_of_int fd <<< 32) % 18446744073709551616
      = 4294967296 * (fd % 4294967296).toNat := by
  unfold size_t_of_int
  rw [Nat.shiftLeft_eq]
  norm_num
  omega

theorem hash_of_nonneg_page (a : FrameId) (h0 : 0 ≤ a.page_num_)
    (h1 : a.page_num_ < 4294967296) :
    a.hash = 4294967296 * (a.file_desc_ % 4294967296).toNat + a.page_num_.toNat := by
  unfold FrameId.hash
  rw [hash_high_word]
  have hq : size_t_of_int a.page_num_ = a.page_num_.toNat := by
    unfold size_t_of_int; omega
  rw [hq]
  have hlt : a.page_num_.toNat < 2 ^ 32 := by
    norm_num; omega
  have := Nat.mul_add_lt_is_or hlt (a.file_desc_ % 4294967296).toNat
  norm_num at this
  rw [this]

theorem equal_to_eq_true (a b : FrameId) : a.equal_to b = true ↔ a = b := by
  cases a
  cases b
  simp [FrameId.equal_to]

theorem erase_of_card_le_one (r : Finset Int) (x : Int) (hx : x ∈ r) (hc : r.card ≤ 1) :
    r.erase x = ∅ := by
  rw [Finset.card_le_one_iff] at hc
  apply Finset.eq_empty_of_forall_not_mem
  intro y hy
  rw [Finset.mem_erase] at hy
  exact hy.1 (hc hy.2 hx)

theorem latch_serial_step (c : Call) (s s1 : Frame) (hc : c ≠ Call.write_unlatch 0)
    (hinv : s.latch_serial) (hstep : c.apply s = Outcome.ok s1 ()) : s1.latch_serial := by
  obtain ⟨hlock, hone⟩ := hinv
  have hfree : s.lock_ = false → s.write_locker_ = 0 ∧ s.read_lockers_ = ∅ := by
    intro hl
    by_contra hcon
    have : s.write_locker_ ≠ 0 ∨ s.read_lockers_ ≠ ∅ := by
      by_cases hw : s.write_locker_ = 0
      · exact Or.inr (fun hr => hcon ⟨hw, hr⟩)
      · exact Or.inl hw
    rw [hlock.2 this] at hl
    cases hl
  cases c with
  | pin =>
    rw [show Call.pin.apply s = pin s from rfl, pin_eq_ok] at hstep
    subst hstep
    exact ⟨hlock, hone⟩
  | unpin =>
    obtain ⟨r, hr⟩ := (void_eq_ok _ _).1 hstep
    obtain ⟨_, _, hs1, _⟩ := (unpin_eq_ok _ _ _).1 hr
    subst hs1
    exact ⟨hlock, hone⟩
  | write_latch xid =>
    obtain ⟨_, hw, _, hl, hs1⟩ := (write_latch_eq_ok _ _ _).1 hstep
    obtain ⟨hw0, hr0⟩ := hfree hl
    subst hs1
    have hx : xid ≠ 0 := fun h => hw (by rw [hw0, h])
    exact ⟨⟨fun _ => Or.inl hx, fun _ => rfl⟩, Or.inl ⟨hx, hr0⟩⟩
  | write_unlatch xid =>
    obtain ⟨_, hw, hs1⟩ := (write_unlatch_eq_ok _ _ _).1 hstep
    have hx : xid ≠ 0 := fun h => hc (by rw [h])
    have hr0 : s.read_lockers_ = ∅ := by
      rcases hone with ⟨_, h⟩ | ⟨h, _⟩
      · exact h
      · exact absurd (hw ▸ h) hx
    subst hs1
    refine ⟨⟨fun h => absurd h Bool.false_ne_true, fun h => ?_⟩, Or.inr ⟨rfl, by simp [hr0]⟩⟩
    rcases h with h | h
    · exact absurd rfl h
    · exact absurd hr0 h
  | read_latch xid =>
    obtain ⟨_, _, _, hl, hs1⟩ := (read_latch_eq_ok _ _ _).1 hstep
    obtain ⟨hw0, hr0⟩ := hfree hl
    subst hs1
    refine ⟨⟨fun _ => Or.inr ?_, fun _ => rfl⟩, Or.inr ⟨hw0, ?_⟩⟩
    · exact Finset.insert_ne_empty _ _
    · simp [hr0]
  | try_read_latch xid =>
    obtain ⟨r, hr⟩ := (void_eq_ok _ _).1 hstep
    obtain ⟨_, _, _, _, hs1⟩ := (try_read_latch_eq_ok _ _ _ _).1 hr
    subst hs1
    split_ifs with hl
    · exact ⟨hlock, hone⟩
    · have hl1 : s.lock_ = false := by
        cases h : s.lock_
        · rfl
        · exact absurd h hl
      obtain ⟨hw0, hr0⟩ := hfree hl1
      refine ⟨⟨fun _ => Or.inr ?_, fun _ => rfl⟩, Or.inr ⟨hw0, ?_⟩⟩
      · exact Finset.insert_ne_empty _ _
      · simp [hr0]
  | read_unlatch xid =>
    obtain ⟨_, hx, hs1⟩ := (read_unlatch_eq_ok _ _ _).1 hstep
    have hne : s.read_lockers_ ≠ ∅ := Finset.ne_empty_of_mem hx
    obtain ⟨hw0, hcard⟩ : s.write_locker_ = 0 ∧ s.read_lockers_.card ≤ 1 := by
      rcases hone with ⟨_, h⟩ | h
      · exact absurd h hne
      · exact h
    have he := erase_of_card_le_one s.read_lockers_ xid hx hcard
    subst hs1
    refine ⟨⟨fun h => absurd h Bool.false_ne_true, fun h => ?_⟩, Or.inr ⟨hw0, by simp [he]⟩⟩
    rcases h with h | h
    · exact absurd hw0 h
    · exact absurd he h
  | mark_dirty =>
    cases hstep
    exact ⟨hlock, hone⟩
  | clear_dirty =>
    cases hstep
    exact ⟨hlock, hone⟩
  | access now =>
    cases hstep
    exact ⟨hlock, hone⟩

theorem void_frame {α : Type} (o : Outcome α) : o.void.frame = o.frame := by
  cases o <;> rfl

/-- Calls other than `mark_dirty` and `clear_dirty` leave the dirty flag as it
is, whatever their outcome. -/
theorem apply_dirty (c : Call) (s : Frame) (h1 : c ≠ Call.mark_dirty)
    (h2 : c ≠ Call.clear_dirty) : (c.apply s).frame.dirty_ = s.dirty_ := by
  cases c with
  | pin => rfl
  | unpin =>
    show (unpin s).void.frame.dirty_ = _
    rw [void_frame, unpin_cases]
    split_ifs <;> rfl
  | write_latch xid =>
    show (write_latch xid s).frame.dirty_ = _
    rw [write_latch_cases]
    split_ifs <;> rfl
  | write_unlatch xid =>
    show (write_unlatch xid s).frame.dirty_ = _
    rw [write_unlatch_cases]
    split_ifs <;> rfl
  | read_latch xid =>
    show (read_latch xid s).frame.dirty_ = _
    rw [read_latch_cases]
    split_ifs <;> rfl
  | try_read_latch xid =>
    show (try_read_latch xid s).void.frame.dirty_ = _
    rw [void_frame, try_read_latch_cases]
    split_ifs <;> rfl
  | read_unlatch xid =>
    show (read_unlatch xid s).frame.dirty_ = _
    rw [read_unlatch_cases]
    split_ifs <;> rfl
  | mark_dirty => exact absurd rfl h1
  | clear_dirty => exact absurd rfl h2
  | access now => rfl

theorem run_frame_cons (c : Call) (cs : List Call) (s : Frame) :
    (run (c :: cs) s).frame = (run cs (c.apply s).frame).frame ∨
      (run (c :: cs) s).frame = (c.apply s).frame := by
  rw [run_cons]
  cases c.apply s with
  | ok s2 u => exact Or.inl rfl
  | fatal s2 => exact Or.inr rfl
  | blocked s2 => exact Or.inr rfl

theorem run_dirty (cs : List Call) :
    ∀ s : Frame, Call.mark_dirty ∉ cs → Call.clear_dirty ∉ cs →
      (run cs s).frame.dirty_ = s.dirty_ := by
  induction cs with
  | nil => intro s _ _; rfl
  | cons c cs ih =>
    intro s h1 h2
    have hc1 : c ≠ Call.mark_dirty := fun h => h1 (h ▸ List.mem_cons_self c cs)
    have hc2 : c ≠ Call.clear_dirty := fun h => h2 (h ▸ List.mem_cons_self c cs)
    have hstep := apply_dirty c s hc1 hc2
    rcases run_frame_cons c cs s with h | h
    · rw [h, ih _ (fun hm => h1 (List.mem_cons_of_mem c hm))
        (fun hm => h2 (List.mem_cons_of_mem c hm)), hstep]
    · rw [h, hstep]

theorem run_stays_dirty (cs : List Call) :
    ∀ s : Frame, Call.clear_dirty ∉ cs → s.dirty_ = true → (run cs s).frame.dirty_ = true := by
  induction cs with
  | nil => intro s _ h; exact h
  | cons c cs ih =>
    intro s h2 hd
    have hc2 : c ≠ Call.clear_dirty := fun h => h2 (h ▸ List.mem_cons_self c cs)
    have hstep : (c.apply s).frame.dirty_ = true := by
      by_cases hm : c = Call.mark_dirty
      · subst hm; rfl
      · rw [apply_dirty c s hm hc2, hd]
    rcases run_frame_cons c cs s with h | h
    · rw [h]
      exact ih _ (fun hm => h2 (List.mem_cons_of_mem c hm)) hstep
    · rw [h, hstep]

/-! ## C1: unpin -/

/-- C1, as stated, fails: on a frame with pin count 1 whose exclusive latch is
still recorded, `unpin` stores the decremented count and then aborts, so it
does not return the new value. -/
theorem unpin_returns_counterexample :
    pinnedWriter.wf ∧ 0 < pinnedWriter.pin_count_ ∧
    unpin pinnedWriter = Outcome.fatal { pinnedWriter with pin_count_ := 0 } ∧
    unpin pinnedWriter ≠
      Outcome.ok { pinnedWriter with pin_count_ := pinnedWriter.pin_count_ - 1 }
        (pinnedWriter.pin_count_ - 1) := by
  decide

/-- C1, amended: on a frame whose pin count is greater than 0, `unpin` stores
the count decremented by exactly 1 and touches no other field; it returns the
new count unless that count is 0 while an exclusive or shared holder is still
recorded, in which case it is a fatal violation raised after the decrement.
On a frame whose pin count is 0 or less it is a fatal violation and the frame
is unchanged. -/
theorem unpin_contract (s : Frame) (hwf : s.wf) :
    (0 < s.pin_count_ →
      (unpin s).frame = { s with pin_count_ := s.pin_count_ - 1 } ∧
      ((s.pin_count_ ≠ 1 ∨ (s.write_locker_ = 0 ∧ s.read_lockers_ = ∅)) →
        unpin s = Outcome.ok { s with pin_count_ := s.pin_count_ - 1 } (s.pin_count_ - 1)) ∧
      ((s.pin_count_ = 1 ∧ (s.write_locker_ ≠ 0 ∨ s.read_lockers_ ≠ ∅)) →
        unpin s = Outcome.fatal { s with pin_count_ := 0 })) ∧
    (s.pin_count_ ≤ 0 → unpin s = Outcome.fatal s) := by
  obtain ⟨hlo, hhi⟩ := hwf
  refine ⟨fun hpos => ?_, fun hle => ?_⟩
  · have hw : int_wrap (s.pin_count_ - 1) = s.pin_count_ - 1 :=
      int_wrap_of_int _ (by omega) (by omega)
    refine ⟨?_, ?_, ?_⟩
    · rw [unpin_cases]
      simp only [hpos, not_true_eq_false, if_false, hw]
      split_ifs <;> rfl
    · intro h
      rw [unpin_cases]
      simp only [hpos, not_true_eq_false, if_false, hw]
      rcases h with h | ⟨h1, h2⟩
      · have : s.pin_count_ - 1 ≠ 0 := by omega
        simp [this]
      · simp [h1, h2]
    · rintro ⟨h1, h2⟩
      rw [unpin_cases]
      simp only [hpos, not_true_eq_false, if_false, hw]
      have : s.pin_count_ - 1 = 0 := by omega
      simp only [this, if_true]
      rcases h2 with h2 | h2
      · simp [h2]
      · by_cases hwl : s.write_locker_ = 0 <;> simp [hwl, h2]
  · rw [unpin_cases]
    have : ¬ 0 < s.pin_count_ := by omega
    simp [this]

/-- Instance of C1 (amended) on a frame pinned twice: `unpin` returns 1. -/
theorem unpin_contract_witness :
    pinnedTwice.wf ∧ unpin pinnedTwice = Outcome.ok { pinnedTwice with pin_count_ := 1 } 1 :=
  ⟨by decide, ((unpin_contract pinnedTwice (by decide)).1 (by decide)).2.1 (Or.inl (by decide))⟩

/-! ## C2: can_purge -/

/-- C2: for every frame state, `can_purge` answers true exactly when the pin
count is 0, and it leaves the frame as it was. -/
theorem can_purge_iff (s : Frame) :
    ((can_purge s).2 = true ↔ s.pin_count_ = 0) ∧ (can_purge s).1 = s := by
  simp [can_purge]

/-! ## C3: sequences of pin and unpin -/

theorem unpin_apply_of_nonpos (s : Frame) (h : s.pin_count_ ≤ 0) :
    Call.unpin.apply s = Outcome.fatal s := by
  show (unpin s).void = _
  rw [unpin_cases]
  have : ¬ 0 < s.pin_count_ := by omega
  simp [this, Outcome.void]

theorem frame_pin_count_self (s : Frame) :
    s = { s with pin_count_ := s.pin_count_ + ((([] : List Call).count Call.pin : Nat) : Int)
            - ((([] : List Call).count Call.unpin : Nat) : Int) } := by
  cases s
  simp

/-- Pins and unpins on an unlatched frame, prefix by prefix: the stored count is
never negative, it is the initial count plus pins minus unpins when the calls
returned, and they return when no prefix has more unpins than the initial count
plus its pins. -/
theorem pin_unpin_trace (cs : List Call) :
    ∀ s : Frame, 0 ≤ s.pin_count_ → s.pin_count_ ≤ 2147483647 → s.unlatched →
      pin_unpin_only cs → no_pin_wraps cs s = true →
      ∀ k : Nat,
        0 ≤ (run (cs.take k) s).frame.pin_count_ ∧
        (∀ s1 : Frame, run (cs.take k) s = Outcome.ok s1 () →
          s1 = { s with pin_count_ := s.pin_count_ + ((cs.take k).count Call.pin : Int)
                  - ((cs.take k).count Call.unpin : Int) }) ∧
        ((∀ j, j ≤ k → ((cs.take j).count Call.unpin : Int) ≤
            s.pin_count_ + ((cs.take j).count Call.pin : Int)) →
          (run (cs.take k) s).isOk = true) := by
  induction cs with
  | nil =>
    intro s h0 _ _ _ _ k
    rw [List.take_nil]
    refine ⟨h0, fun s1 h1 => ?_, fun _ => rfl⟩
    simp only [run] at h1
    cases h1
    exact frame_pin_count_self s
  | cons c cs ih =>
    intro s h0 hmax hl hcs hwrap k
    cases k with
    | zero =>
      rw [List.take_zero]
      refine ⟨h0, fun s1 h1 => ?_, fun _ => rfl⟩
      simp only [run] at h1
      cases h1
      exact frame_pin_count_self s
    | succ k =>
      have hc := hcs c (List.mem_cons_self c cs)
      have hcs1 : pin_unpin_only cs := fun d hd => hcs d (List.mem_cons_of_mem c hd)
      simp only [no_pin_wraps, Bool.and_eq_true, Bool.or_eq_true, decide_eq_true_eq] at hwrap
      obtain ⟨hw1, hw2⟩ := hwrap
      rw [List.take_succ_cons, run_cons]
      rcases hc with rfl | rfl
      · have hlt : s.pin_count_ < 2147483647 := by
          rcases hw1 with hne | hlt
          · exact absurd rfl hne
          · exact hlt
        have hap := pin_apply_of_lt s h0 hlt
        rw [hap] at hw2
        obtain ⟨i1, i2, i3⟩ := ih { s with pin_count_ := s.pin_count_ + 1 }
          (by show 0 ≤ s.pin_count_ + 1; omega) (by show s.pin_count_ + 1 ≤ 2147483647; omega)
          hl hcs1 hw2 k
        rw [hap]
        simp only [Outcome.andThen]
        refine ⟨i1, fun s1 h1 => ?_, fun hpre => i3 ?_⟩
        · rw [i2 s1 h1]
          simp
          omega
        · intro j hj
          have := hpre (j + 1) (by omega)
          simp at this
          show _ ≤ s.pin_count_ + 1 + _
          omega
      · by_cases hpos : 0 < s.pin_count_
        · have hap := unpin_apply_of_unlatched s hl hpos hmax
          rw [hap] at hw2
          obtain ⟨i1, i2, i3⟩ := ih { s with pin_count_ := s.pin_count_ - 1 }
            (by show 0 ≤ s.pin_count_ - 1; omega) (by show s.pin_count_ - 1 ≤ 2147483647; omega)
            hl hcs1 hw2 k
          rw [hap]
          simp only [Outcome.andThen]
          refine ⟨i1, fun s1 h1 => ?_, fun hpre => i3 ?_⟩
          · rw [i2 s1 h1]
            simp
            omega
          · intro j hj
            have := hpre (j + 1) (by omega)
            simp at this
            show _ ≤ s.pin_count_ - 1 + _
            omega
        · have hap := unpin_apply_of_nonpos s (by omega)
          rw [hap]
          simp only [Outcome.andThen]
          refine ⟨h0, fun s1 h1 => (by cases h1), fun hpre => ?_⟩
          have := hpre 1 (by omega)
          simp at this
          omega

/-- C3, as stated, fails: on a fresh frame the balanced sequence unpin, pin
aborts at its first call, so after the prefix of length 1 the stored count is
0 and not 0 + 0 - 1; and a pin on an unlatched frame whose count is `INT_MAX`
leaves a negative count. -/
theorem pin_unpin_counterexample :
    (fresh.wf ∧ fresh.unlatched ∧ 0 ≤ fresh.pin_count_ ∧
      pin_unpin_only [Call.unpin, Call.pin] ∧
      [Call.unpin, Call.pin].count Call.pin = [Call.unpin, Call.pin].count Call.unpin ∧
      run ([Call.unpin, Call.pin].take 1) fresh = Outcome.fatal fresh ∧
      (run ([Call.unpin, Call.pin].take 1) fresh).frame.pin_count_ ≠
        fresh.pin_count_ + (([Call.unpin, Call.pin].take 1).count Call.pin : Int)
          - (([Call.unpin, Call.pin].take 1).count Call.unpin : Int) ∧
      run [Call.unpin, Call.pin] fresh = Outcome.fatal fresh) ∧
    (pinnedMax.wf ∧ pinnedMax.unlatched ∧ pin_unpin_only [Call.pin] ∧
      run [Call.pin] pinnedMax = Outcome.ok { pinnedMax with pin_count_ := -2147483648 } ()) := by
  refine ⟨⟨by decide, by decide, by decide, ?_, by decide, by decide, by decide, by decide⟩,
    by decide, by decide, ?_, by decide⟩
  · intro c hc
    simp at hc
    rcases hc with rfl | rfl <;> simp
  · intro c hc
    simp at hc
    exact Or.inl hc

/-- C3, amended: take a frame with no latch held whose pin count is a
non-negative `int`, and a sequence of pin and unpin calls in which no pin is
executed while the count is `INT_MAX`.  After each prefix the stored pin count
is not negative, whatever the outcome of the calls (an unpin at count 0 is a
fatal violation that ends the sequence with the count still 0).  After each
prefix whose calls all returned, the pin count is the initial count plus the
pins minus the unpins of that prefix, and no other field has changed.  The
calls of a prefix all return whenever none of its prefixes has more unpins
than the initial count plus its pins.  A balanced sequence whose calls all
return ends in the initial frame. -/
theorem pin_unpin_balance (s : Frame) (cs : List Call)
    (hwf : s.wf) (h0 : 0 ≤ s.pin_count_) (hl : s.unlatched) (hcs : pin_unpin_only cs)
    (hwrap : no_pin_wraps cs s = true) :
    (∀ k, 0 ≤ (run (cs.take k) s).frame.pin_count_) ∧
    (∀ (k : Nat) (s1 : Frame), run (cs.take k) s = Outcome.ok s1 () →
      s1 = { s with pin_count_ := s.pin_count_ + ((cs.take k).count Call.pin : Int)
              - ((cs.take k).count Call.unpin : Int) }) ∧
    (∀ k : Nat,
      (∀ j, j ≤ k → ((cs.take j).count Call.unpin : Int) ≤
        s.pin_count_ + ((cs.take j).count Call.pin : Int)) →
      (run (cs.take k) s).isOk = true) ∧
    (∀ s1 : Frame, run cs s = Outcome.ok s1 () →
      cs.count Call.pin = cs.count Call.unpin → s1 = s) := by
  have h := pin_unpin_trace cs s h0 hwf.2 hl hcs hwrap
  refine ⟨fun k => (h k).1, fun k => (h k).2.1, fun k => (h k).2.2, fun s1 hrun hbal => ?_⟩
  have hlen := (h cs.length).2.1 s1 (by rw [List.take_length]; exact hrun)
  rw [List.take_length, hbal] at hlen
  rw [hlen]
  cases s
  simp

/-- Instance of C3 (amended): the four calls pin, pin, unpin, unpin on a fresh
frame all return, and after the first three the count is 0 + 2 - 1; unpin, pin
stops at its first call with the count still 0, not negative. -/
theorem pin_unpin_balance_witness :
    (run ([Call.pin, Call.pin, Call.unpin, Call.unpin].take 4) fresh).isOk = true ∧
    pinnedOnce = { fresh with pin_count_ := fresh.pin_count_
        + (([Call.pin, Call.pin, Call.unpin, Call.unpin].take 3).count Call.pin : Int)
        - (([Call.pin, Call.pin, Call.unpin, Call.unpin].take 3).count Call.unpin : Int) } ∧
    0 ≤ (run ([Call.unpin, Call.pin].take 1) fresh).frame.pin_count_ :=
  ⟨(pin_unpin_balance fresh [Call.pin, Call.pin, Call.unpin, Call.unpin]
      (by decide) (by decide) (by decide)
      (by intro c hc; simp at hc; rcases hc with rfl | rfl <;> simp)
      (by decide)).2.2.1 4
      (by intro j hj; interval_cases j <;> simp [fresh]),
    (pin_unpin_balance fresh [Call.pin, Call.pin, Call.unpin, Call.unpin]
      (by decide) (by decide) (by decide)
      (by intro c hc; simp at hc; rcases hc with rfl | rfl <;> simp)
      (by decide)).2.1 3 pinnedOnce (by decide),
    (pin_unpin_balance fresh [Call.unpin, Call.pin]
      (by decide) (by decide) (by decide)
      (by intro c hc; simp at hc; rcases hc with rfl | rfl <;> simp)
      (by decide)).1 1⟩

/-! ## C4: an unpinned frame is unlatched -/

theorem int_wrap_succ (c : Int) (n : Nat) :
    int_wrap (int_wrap (c + 1) + n) = int_wrap (c + ((n + 1 : Nat) : Int)) := by
  unfold int_wrap
  push_cast
  omega

theorem run_replicate_pin (n : Nat) :
    ∀ s : Frame, s.wf →
      run (List.replicate n Call.pin) s =
        Outcome.ok { s with pin_count_ := int_wrap (s.pin_count_ + n) } () := by
  induction n with
  | zero =>
    intro s hwf
    simp only [List.replicate_zero, run, Nat.cast_zero, add_zero]
    rw [int_wrap_of_int _ hwf.1 hwf.2]
  | succ n ih =>
    intro s hwf
    have hwf1 : Frame.wf { s with pin_count_ := int_wrap (s.pin_count_ + 1) } := by
      unfold Frame.wf int_wrap
      constructor <;> (dsimp only; omega)
    rw [List.replicate_succ, run_cons]
    show (pin s).andThen _ = _
    simp only [pin]
    simp only [Outcome.andThen]
    rw [ih _ hwf1]
    simp only [int_wrap_succ]

theorem pin_inv_step (c : Call) (s s1 : Frame) (hinv : s.pin_inv)
    (hstep : c.apply s = Outcome.ok s1 ())
    (hpin : c ≠ Call.pin ∨ s.pin_count_ < 2147483647) : s1.pin_inv := by
  obtain ⟨h0, h1, h2⟩ := hinv
  cases c with
  | pin =>
    have hlt : s.pin_count_ < 2147483647 := by
      rcases hpin with h | h
      · exact absurd rfl h
      · exact h
    rw [pin_apply_of_lt s h0 hlt] at hstep
    cases hstep
    refine ⟨?_, ?_, ?_⟩ <;> dsimp only <;> omega
  | unpin =>
    obtain ⟨r, hr⟩ := (void_eq_ok _ _).1 hstep
    obtain ⟨hpos, hr1, hs1, hz⟩ := (unpin_eq_ok _ _ _).1 hr
    rw [int_wrap_of_int _ (by omega) (by omega)] at hr1
    subst hs1
    exact ⟨by dsimp only; omega, by dsimp only; omega, hz⟩
  | write_latch xid =>
    obtain ⟨hpos, _, _, _, hs1⟩ := (write_latch_eq_ok _ _ _).1 hstep
    subst hs1
    exact ⟨h0, h1, fun h => by dsimp only at h; omega⟩
  | write_unlatch xid =>
    obtain ⟨hpos, _, hs1⟩ := (write_unlatch_eq_ok _ _ _).1 hstep
    subst hs1
    exact ⟨h0, h1, fun h => by dsimp only at h; omega⟩
  | read_latch xid =>
    obtain ⟨hpos, _, _, _, hs1⟩ := (read_latch_eq_ok _ _ _).1 hstep
    subst hs1
    exact ⟨h0, h1, fun h => by dsimp only at h; omega⟩
  | try_read_latch xid =>
    obtain ⟨r, hr⟩ := (void_eq_ok _ _).1 hstep
    obtain ⟨hpos, _, _, _, hs1⟩ := (try_read_latch_eq_ok _ _ _ _).1 hr
    subst hs1
    split_ifs
    · exact ⟨h0, h1, h2⟩
    · exact ⟨h0, h1, fun h => by dsimp only at h; omega⟩
  | read_unlatch xid =>
    obtain ⟨hpos, _, hs1⟩ := (read_unlatch_eq_ok _ _ _).1 hstep
    subst hs1
    exact ⟨h0, h1, fun h => by dsimp only at h; omega⟩
  | mark_dirty =>
    cases hstep
    exact ⟨h0, h1, h2⟩
  | clear_dirty =>
    cases hstep
    exact ⟨h0, h1, h2⟩
  | access now =>
    cases hstep
    exact ⟨h0, h1, h2⟩

theorem pin_inv_run (cs : List Call) :
    ∀ s s1 : Frame, s.pin_inv → run cs s = Outcome.ok s1 () → pins_in_range cs s = true →
      s1.pin_inv := by
  induction cs with
  | nil =>
    intro s s1 hinv hrun _
    simp only [run] at hrun
    cases hrun
    exact hinv
  | cons c cs ih =>
    intro s s1 hinv hrun hr
    rw [run_cons] at hrun
    simp only [pins_in_range, Bool.and_eq_true, Bool.or_eq_true, decide_eq_true_eq] at hr
    cases hc : c.apply s with
    | ok s2 u =>
      rw [hc] at hrun hr
      cases u
      exact ih s2 s1 (pin_inv_step c s s2 hinv hc hr.1) hrun hr.2
    | fatal s2 => rw [hc] at hrun; simp [Outcome.andThen] at hrun
    | blocked s2 => rw [hc] at hrun; simp [Outcome.andThen] at hrun

theorem int_wrap_full_turn : int_wrap ((1 : Int) + (4294967295 : Nat)) = 0 := by
  unfold int_wrap; norm_num

theorem run_pin_latch_pins (n : Nat) (hn : int_wrap ((1 : Int) + n) = 0) :
    run ([Call.pin, Call.write_latch 1] ++ List.replicate n Call.pin) fresh =
      Outcome.ok { fresh with pin_count_ := 0, lock_ := true, write_locker_ := 1 } () := by
  rw [run_append]
  have h1 : run [Call.pin, Call.write_latch 1] fresh =
      Outcome.ok { fresh with pin_count_ := 1, lock_ := true, write_locker_ := 1 } () := by
    decide
  rw [h1]
  simp only [Outcome.andThen]
  rw [run_replicate_pin _ _ (by decide)]
  simp only [hn]

theorem mem_pin_latch_pins (n : Nat) (c : Call)
    (hc : c ∈ [Call.pin, Call.write_latch 1] ++ List.replicate n Call.pin) :
    c = Call.pin ∨ c = Call.write_latch 1 := by
  simp only [List.mem_append, List.mem_cons, List.mem_singleton, List.not_mem_nil, or_false,
    List.mem_replicate] at hc
  rcases hc with (h1 | h1) | ⟨_, h1⟩
  · exact Or.inl h1
  · exact Or.inr h1
  · exact Or.inl h1

/-- C4, as stated, fails: pin, write_latch(1) and then 4294967295 further
pins all pass their checks, and the 32-bit counter has wrapped around to 0
while identity 1 is still recorded as the exclusive holder. -/
theorem unpinned_latched_counterexample :
    run wrapAround fresh =
      Outcome.ok { fresh with pin_count_ := 0, lock_ := true, write_locker_ := 1 } () ∧
    (∀ c ∈ wrapAround, c = Call.pin ∨ c = Call.write_latch 1) ∧
    ({ fresh with pin_count_ := 0, lock_ := true, write_locker_ := 1 } : Frame).pin_count_ = 0 ∧
    ({ fresh with pin_count_ := 0, lock_ := true, write_locker_ := 1 } : Frame).write_owner
      = some 1 :=
  ⟨run_pin_latch_pins 4294967295 int_wrap_full_turn,
    fun c hc => mem_pin_latch_pins 4294967295 c hc, rfl, by decide⟩

/-- C4, amended: start from a fresh frame (pin count 0, no exclusive holder,
no shared holder) and apply a sequence of calls that all return (each passes
its checks) and in which no `pin` finds the counter at `INT_MAX`.  In the state
reached, a pin count of 0 implies that there is no exclusive holder and that
the set of shared holders is empty. -/
theorem unpinned_is_unlatched (s0 : Frame) (cs : List Call) (s : Frame)
    (hpin : s0.pin_count_ = 0) (hwo : s0.write_owner = none) (hro : s0.read_lockers_ = ∅)
    (hrun : run cs s0 = Outcome.ok s ()) (hrange : pins_in_range cs s0 = true)
    (hzero : s.pin_count_ = 0) :
    s.write_owner = none ∧ s.read_lockers_ = ∅ := by
  have hinv : s0.pin_inv :=
    ⟨by omega, by omega, fun _ => ⟨(write_owner_eq_none s0).1 hwo, hro⟩⟩
  obtain ⟨_, _, h⟩ := pin_inv_run cs s0 s hinv hrun hrange
  obtain ⟨hw, hr⟩ := h hzero
  exact ⟨(write_owner_eq_none s).2 hw, hr⟩

/-- Instance of C4 (amended): after pin, write_latch(7), mark_dirty,
write_unlatch(7), unpin on a fresh frame the count is 0 and no holder is
recorded. -/
theorem unpinned_is_unlatched_witness :
    run latchedRoundTrip fresh = Outcome.ok (mark_dirty fresh) () ∧
    pins_in_range latchedRoundTrip fresh = true ∧
    (mark_dirty fresh).write_owner = none ∧ (mark_dirty fresh).read_lockers_ = ∅ :=
  ⟨by decide, by decide,
    unpinned_is_unlatched fresh latchedRoundTrip (mark_dirty fresh) (by decide) (by decide)
      (by decide) (by decide) (by decide) (by decide)⟩

/-! ## C5: the last unpin -/

/-- C5: an `unpin` that takes the pin count from 1 to 0 is a fatal violation
exactly when an exclusive holder is recorded or the set of shared holders is
not empty (the count 0 having been stored already); and whenever `unpin`
returns 0, the frame it leaves has no exclusive holder and no shared holder. -/
theorem unpin_to_zero (s : Frame) :
    (s.pin_count_ = 1 →
      ((unpin s).isFatal = true ↔ (s.write_owner ≠ none ∨ s.read_lockers_ ≠ ∅)) ∧
      ((unpin s).isFatal = false ↔ unpin s = Outcome.ok { s with pin_count_ := 0 } 0) ∧
      (unpin s).frame = { s with pin_count_ := 0 }) ∧
    (∀ s1 : Frame, unpin s = Outcome.ok s1 0 →
      s1.write_owner = none ∧ s1.read_lockers_ = ∅) := by
  constructor
  · intro h1
    have hw : int_wrap (1 - 1) = 0 := by decide
    simp only [ne_eq, write_owner_eq_none]
    rw [unpin_cases]
    simp only [h1, hw]
    by_cases hwl : s.write_locker_ = 0 <;> by_cases hrl : s.read_lockers_ = ∅ <;>
      simp [hwl, hrl, Outcome.isFatal, Outcome.frame]
  · intro s1 h
    obtain ⟨_, _, hs1, hz⟩ := (unpin_eq_ok _ _ _).1 h
    obtain ⟨hw, hr⟩ := hz rfl
    subst hs1
    exact ⟨(write_owner_eq_none _).2 hw, hr⟩

/-- Instance of C5: the last unpin of a frame whose exclusive latch is still
recorded is fatal, and the last unpin of an unlatched frame returns 0. -/
theorem unpin_to_zero_witness :
    (unpin pinnedWriter).isFatal = true ∧
    unpin pinnedOnce = Outcome.ok fresh 0 ∧
    (fresh.write_owner = none ∧ fresh.read_lockers_ = ∅) :=
  ⟨((unpin_to_zero pinnedWriter).1 (by decide)).1.2 (Or.inl (by decide)), by decide,
    (unpin_to_zero pinnedOnce).2 fresh (by decide)⟩

/-! ## C6: write_latch -/

theorem write_latch_fatal_of_owner (x : Int) (s : Frame) (h : s.write_locker_ = x) :
    write_latch x s = Outcome.fatal s := by
  rw [write_latch_cases]
  split_ifs <;> simp_all

theorem write_latch_fatal_of_reader (x : Int) (s : Frame) (h : x ∈ s.read_lockers_) :
    write_latch x s = Outcome.fatal s := by
  rw [write_latch_cases]
  split_ifs <;> simp_all

/-- C6, as stated, fails for identity 0.  On a frame pinned once, with no
exclusive holder and no shared holder, the three conditions of the claim hold
(identity 0 is not the exclusive holder, since there is none), yet
`write_latch(0)` is a fatal violation, because the stored `write_locker_` is
0.  And on a pinned frame whose lock is free while identity 5 is recorded as
the exclusive holder, `write_latch(0)` passes, takes the lock and leaves the
frame without an exclusive holder instead of making 0 the holder. -/
theorem write_latch_zero_counterexample :
    (0 < pinnedOnce.pin_count_ ∧ pinnedOnce.write_owner = none ∧
      pinnedOnce.write_owner ≠ some 0 ∧ (0 : Int) ∉ pinnedOnce.read_lockers_ ∧
      write_latch 0 pinnedOnce = Outcome.fatal pinnedOnce) ∧
    (run [Call.pin, Call.read_latch 7, Call.write_unlatch 0, Call.write_latch 5,
        Call.read_unlatch 7] fresh = Outcome.ok pinnedWriterUnlocked () ∧
      pinnedWriterUnlocked.write_owner = some 5 ∧ pinnedWriterUnlocked.lock_ = false ∧
      write_latch 0 pinnedWriterUnlocked = Outcome.ok { pinnedOnce with lock_ := true } () ∧
      ({ pinnedOnce with lock_ := true } : Frame).write_owner = none ∧
      ({ pinnedOnce with lock_ := true } : Frame).write_owner ≠ some 0) := by
  decide

/-- C6, amended: `write_latch(x)` passes its validation exactly when the pin
count is greater than 0, `x` differs from the stored `write_locker_` and `x` is
not a shared holder; for `x` other than 0 the second condition says that `x`
is not the exclusive holder.  Otherwise the call is a fatal violation that
leaves the frame, the lock included, untouched.  After a pin and a
`write_latch(x)` that returned, a second `write_latch(x)` is fatal, and so is
`write_latch(x)` after a pin and a `read_latch(x)` that returned; on a fresh
frame both scenarios end in a fatal violation for every `x`, and for `x` other
than 0 it is the last call that fails.  When the validation passes and the
lock is free, the call takes the lock and stores `x` as `write_locker_`: for
`x` other than 0 the exclusive holder is then `x`, and for `x` equal to 0 the
frame is left without an exclusive holder. -/
theorem write_latch_contract (s : Frame) (x : Int) :
    ((write_latch x s).isFatal = false ↔
      (0 < s.pin_count_ ∧ s.write_locker_ ≠ x ∧ x ∉ s.read_lockers_)) ∧
    (x ≠ 0 → (s.write_locker_ ≠ x ↔ s.write_owner ≠ some x)) ∧
    ((write_latch x s).isFatal = true → write_latch x s = Outcome.fatal s) ∧
    (∀ s1 s2 : Frame, pin s = Outcome.ok s1 () → write_latch x s1 = Outcome.ok s2 () →
      write_latch x s2 = Outcome.fatal s2) ∧
    (∀ s1 s2 : Frame, pin s = Outcome.ok s1 () → read_latch x s1 = Outcome.ok s2 () →
      write_latch x s2 = Outcome.fatal s2) ∧
    ((run [Call.pin, Call.write_latch x, Call.write_latch x] fresh).isFatal = true ∧
      (run [Call.pin, Call.read_latch x, Call.write_latch x] fresh).isFatal = true) ∧
    (x ≠ 0 →
      run [Call.pin, Call.write_latch x] fresh =
        Outcome.ok { pinnedOnce with lock_ := true, write_locker_ := x } () ∧
      run [Call.pin, Call.read_latch x] fresh =
        Outcome.ok { pinnedOnce with read_lockers_ := {x}, lock_ := true } ()) ∧
    ((write_latch x s).isFatal = false → s.lock_ = false →
      write_latch x s = Outcome.ok { s with lock_ := true, write_locker_ := x } () ∧
      (write_latch x s).frame.lock_ = true ∧
      (write_latch x s).frame.write_locker_ = x ∧
      (x ≠ 0 → (write_latch x s).frame.write_owner = some x) ∧
      (x = 0 → (write_latch x s).frame.write_owner = none)) := by
  refine ⟨?_, ?_, ?_, ?_, ?_, ⟨?_, ?_⟩, ?_, ?_⟩
  · rw [write_latch_cases]
    split_ifs <;> simp_all [Outcome.isFatal]
  · intro hx
    rw [ne_eq, ne_eq, write_owner_eq_some s x hx]
  · rw [write_latch_cases]
    split_ifs <;> simp [Outcome.isFatal]
  · intro s1 s2 _ h2
    obtain ⟨_, _, _, _, hs2⟩ := (write_latch_eq_ok _ _ _).1 h2
    exact write_latch_fatal_of_owner x s2 (by rw [hs2])
  · intro s1 s2 _ h2
    obtain ⟨_, _, _, _, hs2⟩ := (read_latch_eq_ok _ _ _).1 h2
    exact write_latch_fatal_of_reader x s2 (by rw [hs2]; simp)
  · by_cases hx : x = 0
    · subst hx; decide
    · simp only [run, Call.apply, pin_fresh, Outcome.andThen, write_latch_pinnedOnce x hx]
      rw [write_latch_fatal_of_owner x _ rfl]
      rfl
  · by_cases hx : x = 0
    · subst hx; decide
    · simp only [run, Call.apply, pin_fresh, Outcome.andThen, read_latch_pinnedOnce x hx]
      rw [write_latch_fatal_of_reader x _ (by simp)]
      rfl
  · intro hx
    simp only [run, Call.apply, pin_fresh, Outcome.andThen, write_latch_pinnedOnce x hx,
      read_latch_pinnedOnce x hx, and_self]
  · intro hv hl
    have heq : write_latch x s =
        Outcome.ok { s with lock_ := true, write_locker_ := x } () := by
      rw [write_latch_cases] at hv ⊢
      split_ifs at hv ⊢ <;> simp_all [Outcome.isFatal]
    rw [heq]
    refine ⟨rfl, rfl, rfl, fun hx => ?_, fun hx => ?_⟩
    · exact (write_owner_eq_some _ x hx).2 rfl
    · exact (write_owner_eq_none _).2 hx

/-- Instance of C6 (amended) for identity 7: scenario B and scenario C of the
spec end in a fatal violation, and on a frame pinned once `write_latch(7)`
takes the lock and makes 7 the exclusive holder. -/
theorem write_latch_contract_witness :
    (run [Call.pin, Call.write_latch 7, Call.write_latch 7] fresh).isFatal = true ∧
    (run [Call.pin, Call.read_latch 7, Call.write_latch 7] fresh).isFatal = true ∧
    write_latch 7 pinnedOnce =
      Outcome.ok { pinnedOnce with lock_ := true, write_locker_ := 7 } () ∧
    (write_latch 7 pinnedOnce).frame.write_owner = some 7 :=
  ⟨(write_latch_contract fresh 7).2.2.2.2.2.1.1, (write_latch_contract fresh 7).2.2.2.2.2.1.2,
    ((write_latch_contract pinnedOnce 7).2.2.2.2.2.2.2 (by decide) (by decide)).1,
    ((write_latch_contract pinnedOnce 7).2.2.2.2.2.2.2 (by decide) (by decide)).2.2.2.1
      (by decide)⟩

/-! ## C7: read_latch -/

/-- C7, as stated, fails for identity 0: on a frame pinned once, with no
exclusive holder and no shared holder, the three conditions of the claim hold
(identity 0 is not the exclusive holder, since there is none), yet
`read_latch(0)` is a fatal violation, because the stored `write_locker_` is
0. -/
theorem read_latch_zero_counterexample :
    0 < pinnedOnce.pin_count_ ∧ (0 : Int) ∉ pinnedOnce.read_lockers_ ∧
    pinnedOnce.write_owner = none ∧ pinnedOnce.write_owner ≠ some 0 ∧
    read_latch 0 pinnedOnce = Outcome.fatal pinnedOnce := by
  decide

/-- C7, amended: `read_latch(x)` passes its validation exactly when the pin
count is greater than 0, `x` is not yet a shared holder and `x` differs from
the stored `write_locker_`; for `x` other than 0 the last condition says that
`x` is not the exclusive holder.  Otherwise the call is a fatal violation that
leaves the frame untouched.  When the validation passes, `x` is inserted among
the shared holders before the lock is requested: if the lock is held the call
waits with `x` already recorded, and if the lock is free it takes the lock. -/
theorem read_latch_contract (s : Frame) (x : Int) :
    ((read_latch x s).isFatal = false ↔
      (0 < s.pin_count_ ∧ x ∉ s.read_lockers_ ∧ x ≠ s.write_locker_)) ∧
    (x ≠ 0 → (x ≠ s.write_locker_ ↔ s.write_owner ≠ some x)) ∧
    ((read_latch x s).isFatal = true → read_latch x s = Outcome.fatal s) ∧
    ((read_latch x s).isFatal = false →
      (read_latch x s).frame.read_lockers_ = insert x s.read_lockers_ ∧
      x ∈ (read_latch x s).frame.read_lockers_ ∧
      (s.lock_ = true → read_latch x s =
        Outcome.blocked { s with read_lockers_ := insert x s.read_lockers_ }) ∧
      (s.lock_ = false → read_latch x s =
        Outcome.ok { s with read_lockers_ := insert x s.read_lockers_, lock_ := true } ())) := by
  refine ⟨?_, ?_, ?_, ?_⟩
  · rw [read_latch_cases]
    split_ifs <;> simp_all [Outcome.isFatal]
  · intro hx
    rw [ne_eq, ne_eq, write_owner_eq_some s x hx]
    exact ⟨fun h h1 => h h1.symm, fun h h1 => h h1.symm⟩
  · rw [read_latch_cases]
    split_ifs <;> simp [Outcome.isFatal]
  · intro hv
    rw [read_latch_cases] at hv ⊢
    split_ifs at hv ⊢ <;> simp_all [Outcome.isFatal, Outcome.frame]

/-- Instance of C7 (amended): on a frame whose exclusive latch is held by
identity 5, `read_latch(7)` passes its validation and waits on the lock with 7
already recorded as a shared holder. -/
theorem read_latch_contract_witness :
    (read_latch 7 pinnedWriter).isFatal = false ∧ pinnedWriter.lock_ = true ∧
    read_latch 7 pinnedWriter =
      Outcome.blocked { pinnedWriter with read_lockers_ := insert 7 pinnedWriter.read_lockers_ } :=
  ⟨by decide, by decide,
    ((read_latch_contract pinnedWriter 7).2.2.2 (by decide)).2.2.1 (by decide)⟩

/-! ## C8: write_unlatch -/

/-- C8, as stated, fails for identity 0: on a pinned frame with no exclusive
holder, whose lock is held by the shared holder 7, `write_unlatch(0)` is not a
fatal violation; it returns and releases the lock. -/
theorem write_unlatch_zero_counterexample :
    pinnedReader.write_owner = none ∧ pinnedReader.write_owner ≠ some 0 ∧
    pinnedReader.lock_ = true ∧
    write_unlatch 0 pinnedReader = Outcome.ok { pinnedReader with lock_ := false } () := by
  decide

/-- C8, amended: `write_unlatch(x)` returns exactly when the pin count is
greater than 0 and `x` equals the stored `write_locker_`, and is a fatal
violation that leaves the frame untouched otherwise.  Hence for `x` other than
0 it returns only when `x` is the exclusive holder, and a call by an identity
other than 0 that is not the exclusive holder is fatal.  When it returns,
there is no exclusive holder any more and the lock is released, while the pin
count and the shared holders are unchanged. -/
theorem write_unlatch_contract (s : Frame) (x : Int) :
    ((write_unlatch x s).isOk = true ↔ (0 < s.pin_count_ ∧ s.write_locker_ = x)) ∧
    ((write_unlatch x s).isOk = false → write_unlatch x s = Outcome.fatal s) ∧
    (x ≠ 0 →
      ((write_unlatch x s).isOk = true → s.write_owner = some x) ∧
      (s.write_owner ≠ some x → write_unlatch x s = Outcome.fatal s)) ∧
    ((write_unlatch x s).isOk = true →
      write_unlatch x s = Outcome.ok { s with write_locker_ := 0, lock_ := false } () ∧
      (write_unlatch x s).frame.write_owner = none ∧
      (write_unlatch x s).frame.lock_ = false ∧
      (write_unlatch x s).frame.pin_count_ = s.pin_count_ ∧
      (write_unlatch x s).frame.read_lockers_ = s.read_lockers_) := by
  have hiff : (write_unlatch x s).isOk = true ↔ (0 < s.pin_count_ ∧ s.write_locker_ = x) := by
    rw [write_unlatch_cases]
    split_ifs <;> simp_all [Outcome.isOk]
  have hfatal : (write_unlatch x s).isOk = false → write_unlatch x s = Outcome.fatal s := by
    rw [write_unlatch_cases]
    split_ifs <;> simp [Outcome.isOk]
  refine ⟨hiff, hfatal, ?_, ?_⟩
  · intro hx
    refine ⟨fun h => (write_owner_eq_some s x hx).2 (hiff.1 h).2, fun h => hfatal ?_⟩
    cases hok : (write_unlatch x s).isOk
    · rfl
    · exact absurd ((write_owner_eq_some s x hx).2 (hiff.1 hok).2) h
  · intro h
    obtain ⟨hp, hw⟩ := hiff.1 h
    have hpos : ¬ ¬ (0 < s.pin_count_) := fun hn => hn hp
    have heq : write_unlatch x s =
        Outcome.ok { s with write_locker_ := 0, lock_ := false } () := by
      rw [write_unlatch_cases]
      simp [hp, hw]
    rw [heq]
    exact ⟨rfl, by simp [Outcome.frame, Frame.write_owner], rfl, rfl, rfl⟩

/-- Instance of C8 (amended): identity 5 releases the exclusive latch it holds,
and identity 7, which does not hold it, is refused. -/
theorem write_unlatch_contract_witness :
    write_unlatch 5 pinnedWriter = Outcome.ok pinnedOnce () ∧
    write_unlatch 7 pinnedWriter = Outcome.fatal pinnedWriter :=
  ⟨((write_unlatch_contract pinnedWriter 5).2.2.2 (by decide)).1,
    ((write_unlatch_contract pinnedWriter 7).2.2.1 (by decide)).2 (by decide)⟩

/-! ## C9: read_unlatch -/

/-- C9: `read_unlatch(x)` is a fatal violation, leaving the frame untouched,
unless `x` is a shared holder and the pin count is greater than 0.  Otherwise
it returns, having removed exactly `x` from the shared holders (every other
identity is a holder afterwards exactly when it was one before), released the
lock, and changed nothing else.  Hence on a pinned frame with a free lock,
`read_latch(x)` followed by `read_unlatch(x)` leaves the shared holders, the
exclusive holder and the lock as they were, and when `read_latch(x)` passes
its validation the two calls return and leave the whole frame as it was. -/
theorem read_unlatch_contract (s : Frame) (x : Int) :
    (¬ (x ∈ s.read_lockers_ ∧ 0 < s.pin_count_) → read_unlatch x s = Outcome.fatal s) ∧
    ((x ∈ s.read_lockers_ ∧ 0 < s.pin_count_) →
      read_unlatch x s =
        Outcome.ok { s with read_lockers_ := s.read_lockers_.erase x, lock_ := false } () ∧
      x ∉ (read_unlatch x s).frame.read_lockers_ ∧
      (∀ y : Int, y ≠ x →
        (y ∈ (read_unlatch x s).frame.read_lockers_ ↔ y ∈ s.read_lockers_)) ∧
      (read_unlatch x s).frame.write_locker_ = s.write_locker_ ∧
      (read_unlatch x s).frame.pin_count_ = s.pin_count_ ∧
      (read_unlatch x s).frame.lock_ = false) ∧
    (0 < s.pin_count_ → s.lock_ = false →
      ((read_latch x s).andThen (read_unlatch x)).frame.read_lockers_ = s.read_lockers_ ∧
      ((read_latch x s).andThen (read_unlatch x)).frame.write_owner = s.write_owner ∧
      ((read_latch x s).andThen (read_unlatch x)).frame.lock_ = s.lock_ ∧
      ((read_latch x s).isFatal = false →
        (read_latch x s).andThen (read_unlatch x) = Outcome.ok s ())) := by
  refine ⟨?_, ?_, ?_⟩
  · intro h
    rw [read_unlatch_cases]
    split_ifs <;> simp_all
  · rintro ⟨hx, hp⟩
    have heq : read_unlatch x s =
        Outcome.ok { s with read_lockers_ := s.read_lockers_.erase x, lock_ := false } () := by
      rw [read_unlatch_cases]
      simp [hp, hx]
    rw [heq]
    refine ⟨rfl, by simp [Outcome.frame], ?_, rfl, rfl, rfl⟩
    intro y hy
    simp [Outcome.frame, hy]
  · intro hp hl
    by_cases hv : x ∉ s.read_lockers_ ∧ x ≠ s.write_locker_
    · obtain ⟨h1, h2⟩ := hv
      have hrl : read_latch x s =
          Outcome.ok { s with read_lockers_ := insert x s.read_lockers_, lock_ := true } () := by
        rw [read_latch_eq_ok]
        exact ⟨hp, h1, h2, hl, rfl⟩
      have hru : read_unlatch x
          { s with read_lockers_ := insert x s.read_lockers_, lock_ := true } =
            Outcome.ok s () := by
        rw [read_unlatch_eq_ok]
        refine ⟨hp, by simp, ?_⟩
        cases s
        simp_all
      simp only [hrl, Outcome.andThen, hru, Outcome.frame]
      simp
    · have hf : read_latch x s = Outcome.fatal s := by
        rw [read_latch_cases]
        split_ifs <;> simp_all
      simp [hf, Outcome.andThen, Outcome.frame, Outcome.isFatal]

/-- Instance of C9: identity 7 releases the shared latch it holds on a pinned
frame, and on a frame pinned once `read_latch(7)` followed by
`read_unlatch(7)` gives the frame back unchanged. -/
theorem read_unlatch_contract_witness :
    read_unlatch 7 pinnedReader = Outcome.ok pinnedOnce () ∧
    (read_latch 7 pinnedOnce).andThen (read_unlatch 7) = Outcome.ok pinnedOnce () :=
  ⟨by
      have h := ((read_unlatch_contract pinnedReader 7).2.1 (by decide)).1
      rw [h]
      decide,
    ((read_unlatch_contract pinnedOnce 7).2.2 (by decide) (by decide)).2.2.2 (by decide)⟩

/-! ## C10: try_read_latch -/

/-- C10: `try_read_latch`, called by identity `xid`, passes its validation
exactly when the pin count is greater than 0, `xid` is not a shared holder and
`xid` differs from the stored `write_locker_` (for `xid` other than 0: `xid` is
not the exclusive holder).  Whenever it passes, the call returns: with false
and the frame untouched if the lock is held, and with true, the lock taken and
`xid` added to the shared holders, nothing else changed, if the lock is
free. -/
theorem try_read_latch_contract (s : Frame) (xid : Int) :
    ((try_read_latch xid s).isFatal = false ↔
      (0 < s.pin_count_ ∧ xid ∉ s.read_lockers_ ∧ xid ≠ s.write_locker_)) ∧
    (xid ≠ 0 → (xid ≠ s.write_locker_ ↔ s.write_owner ≠ some xid)) ∧
    ((try_read_latch xid s).isFatal = false →
      (s.lock_ = true → try_read_latch xid s = Outcome.ok s false) ∧
      (s.lock_ = false →
        try_read_latch xid s =
          Outcome.ok { s with lock_ := true, read_lockers_ := insert xid s.read_lockers_ } true ∧
        (try_read_latch xid s).frame.read_lockers_ = insert xid s.read_lockers_ ∧
        (try_read_latch xid s).frame.lock_ = true ∧
        (try_read_latch xid s).frame.write_locker_ = s.write_locker_ ∧
        (try_read_latch xid s).frame.pin_count_ = s.pin_count_)) := by
  refine ⟨?_, ?_, ?_⟩
  · rw [try_read_latch_cases]
    split_ifs <;> simp_all [Outcome.isFatal]
  · intro hx
    rw [ne_eq, ne_eq, write_owner_eq_some s xid hx]
    exact ⟨fun h h1 => h h1.symm, fun h h1 => h h1.symm⟩
  · intro hv
    rw [try_read_latch_cases] at hv ⊢
    split_ifs at hv ⊢ <;> simp_all [Outcome.isFatal, Outcome.frame]

/-- Instance of C10: on a frame whose lock is held by the writer 5,
`try_read_latch` by identity 7 returns false and changes nothing; on a frame
pinned once it returns true and records 7. -/
theorem try_read_latch_contract_witness :
    try_read_latch 7 pinnedWriter = Outcome.ok pinnedWriter false ∧
    try_read_latch 7 pinnedOnce = Outcome.ok pinnedReader true :=
  ⟨((try_read_latch_contract pinnedWriter 7).2.2 (by decide)).1 (by decide),
    (((try_read_latch_contract pinnedOnce 7).2.2 (by decide)).2 (by decide)).1⟩

/-! ## C11: no identity holds both latch types -/

/-- C11: start from a fresh frame (no exclusive holder, no shared holder) and
apply any sequence of calls that all return (each passes its checks).  In the
state reached, whenever there is an exclusive holder, it is not among the
shared holders. -/
theorem latch_types_exclusive (s0 : Frame) (cs : List Call) (s : Frame)
    (hwo : s0.write_owner = none) (hrun : run cs s0 = Outcome.ok s ()) :
    ∀ x : Int, s.write_owner = some x → x ∉ s.read_lockers_ := by
  have h0 : s0.latch_disjoint := fun h => absurd ((write_owner_eq_none s0).1 hwo) h
  have h : s.latch_disjoint :=
    run_induction Frame.latch_disjoint (fun _ => True)
      (fun c a b _ ha hab => latch_disjoint_step c a b ha hab) cs s0 s
      (fun _ _ => trivial) h0 hrun
  intro x hx
  unfold Frame.write_owner at hx
  split_ifs at hx with hz
  cases hx
  exact h hz

/-- Instance of C11: after pin, write_latch(5) on a fresh frame identity 5 is
the exclusive holder and is not a shared holder. -/
theorem latch_types_exclusive_witness :
    run [Call.pin, Call.write_latch 5] fresh = Outcome.ok pinnedWriter () ∧
    pinnedWriter.write_owner = some 5 ∧ (5 : Int) ∉ pinnedWriter.read_lockers_ :=
  ⟨by decide, by decide,
    latch_types_exclusive fresh [Call.pin, Call.write_latch 5] pinnedWriter (by decide)
      (by decide) 5 (by decide)⟩

/-! ## C12: scenario A -/

/-- C12, as stated, fails for identity 0: on a fresh frame the sequence pin,
write_latch(0), mark_dirty, write_unlatch(0), unpin stops at `write_latch(0)`
with a fatal violation, the frame being pinned once and not dirty. -/
theorem scenario_a_zero_counterexample :
    run (scenario_a 0) fresh = Outcome.fatal pinnedOnce ∧
    write_latch 0 pinnedOnce = Outcome.fatal pinnedOnce ∧
    dirty (run (scenario_a 0) fresh).frame = false ∧
    (can_purge (run (scenario_a 0) fresh).frame).2 = false := by
  decide

/-- C12, amended: for every caller identity `x` other than 0, on a fresh frame
the sequence pin, write_latch(x), mark_dirty, write_unlatch(x), unpin returns
without any violation; the pin count is 1 after the pin and through the
write unlatch, the final unpin returns 0, and afterwards the frame is dirty,
may be purged, has no exclusive holder and its lock is free. -/
theorem scenario_a_runs (x : Int) (hx : x ≠ 0) :
    run [Call.pin] fresh = Outcome.ok pinnedOnce () ∧
    pinnedOnce.pin_count_ = 1 ∧
    run [Call.pin, Call.write_latch x, Call.mark_dirty, Call.write_unlatch x] fresh =
      Outcome.ok (mark_dirty pinnedOnce) () ∧
    unpin (mark_dirty pinnedOnce) = Outcome.ok (mark_dirty fresh) 0 ∧
    run (scenario_a x) fresh = Outcome.ok (mark_dirty fresh) () ∧
    (mark_dirty fresh).pin_count_ = 0 ∧
    dirty (mark_dirty fresh) = true ∧
    (can_purge (mark_dirty fresh)).2 = true ∧
    (mark_dirty fresh).write_owner = none ∧
    (mark_dirty fresh).lock_ = false := by
  have h4 : run [Call.pin, Call.write_latch x, Call.mark_dirty, Call.write_unlatch x] fresh =
      Outcome.ok (mark_dirty pinnedOnce) () := by
    have hwu : write_unlatch x
        (mark_dirty { pinnedOnce with lock_ := true, write_locker_ := x }) =
          Outcome.ok (mark_dirty pinnedOnce) () := by
      rw [write_unlatch_eq_ok]
      exact ⟨show (0 : Int) < 1 by decide, rfl, rfl⟩
    simp only [run, Call.apply, pin_fresh, Outcome.andThen, write_latch_pinnedOnce x hx, hwu]
  have h5 : unpin (mark_dirty pinnedOnce) = Outcome.ok (mark_dirty fresh) 0 := by decide
  refine ⟨by decide, rfl, h4, h5, ?_, rfl, rfl, by decide, by decide, rfl⟩
  have happ : scenario_a x =
      [Call.pin, Call.write_latch x, Call.mark_dirty, Call.write_unlatch x] ++ [Call.unpin] := rfl
  rw [happ, run_append, h4]
  simp only [Outcome.andThen, run, Call.apply, h5, Outcome.void]

/-- Instance of C12 (amended) for identity 7. -/
theorem scenario_a_runs_witness :
    run (scenario_a 7) fresh = Outcome.ok (mark_dirty fresh) () ∧
    dirty (mark_dirty fresh) = true ∧ (can_purge (mark_dirty fresh)).2 = true :=
  ⟨(scenario_a_runs 7 (by decide)).2.2.2.2.1, (scenario_a_runs 7 (by decide)).2.2.2.2.2.2.1,
    (scenario_a_runs 7 (by decide)).2.2.2.2.2.2.2.1⟩

/-! ## C13: the hash is injective -/

/-- C13: for all file descriptors and page numbers, identities with the same
hash have the same file descriptor and the same page number, that is, they
are the same identity; in particular `FrameId(3, 7)` and `FrameId(3, 8)` have
different hashes. -/
theorem hash_injective (a b : FrameId) (ha : a.wf) (hb : b.wf) (hh : a.hash = b.hash) :
    (a.file_desc = b.file_desc ∧ a.page_num = b.page_num) ∧ a = b ∧
    (FrameId.mk 3 7).hash ≠ (FrameId.mk 3 8).hash := by
  obtain ⟨⟨fa1, fa2⟩, ⟨pa1, pa2⟩⟩ := ha
  obtain ⟨⟨fb1, fb2⟩, ⟨pb1, pb2⟩⟩ := hb
  have h1 := hash_of_nonneg_page a pa1 (by omega)
  have h2 := hash_of_nonneg_page b pb1 (by omega)
  rw [hh] at h1
  have hf : a.file_desc_ = b.file_desc_ := by omega
  have hp : a.page_num_ = b.page_num_ := by omega
  refine ⟨⟨hf, hp⟩, ?_, by decide⟩
  cases a
  cases b
  simp_all

/-- Instance of C13: `FrameId(3, 7)` and `FrameId(-1, 4294967295)` are well
formed, with the hashes 3 * 2^32 + 7 and 2^64 - 1, and two identities built as
`FrameId(3, 7)` agree in both fields. -/
theorem hash_injective_witness :
    (FrameId.mk 3 7).wf ∧ (FrameId.mk (-1) 4294967295).wf ∧
    (FrameId.mk 3 7).hash = 12884901895 ∧
    (FrameId.mk (-1) 4294967295).hash = 18446744073709551615 ∧
    ((FrameId.mk 3 7).file_desc = (FrameId.mk 3 7).file_desc ∧
      (FrameId.mk 3 7).page_num = (FrameId.mk 3 7).page_num) :=
  ⟨by decide, by decide, by decide, by decide,
    (hash_injective (FrameId.mk 3 7) (FrameId.mk 3 7) (by decide) (by decide) rfl).1⟩

/-! ## C14: equality of identities -/

/-- C14: `equal_to` answers true exactly when both fields agree, `operator==`
gives the same answer, every identity equals itself, and identities that
differ in a field are unequal. -/
theorem equal_to_iff (a b : FrameId) :
    (a.equal_to b = true ↔ (a.file_desc = b.file_desc ∧ a.page_num = b.page_num)) ∧
    a.operator_eq b = a.equal_to b ∧
    (∀ fd p : Int, (FrameId.mk fd p).equal_to (FrameId.mk fd p) = true ∧
      (FrameId.mk fd p).operator_eq (FrameId.mk fd p) = true) ∧
    ((a.file_desc ≠ b.file_desc ∨ a.page_num ≠ b.page_num) →
      a.equal_to b = false ∧ a.operator_eq b = false) := by
  refine ⟨?_, rfl, ?_, ?_⟩
  · simp [FrameId.equal_to, FrameId.file_desc, FrameId.page_num]
  · intro fd p
    simp [FrameId.equal_to, FrameId.operator_eq]
  · intro h
    simp only [FrameId.operator_eq, and_self]
    simp only [FrameId.file_desc, FrameId.page_num] at h
    rcases h with h | h <;> simp [FrameId.equal_to, h]

/-- Instance of C14: `FrameId(3, 7)` and `FrameId(3, 8)` are unequal. -/
theorem equal_to_iff_witness :
    (FrameId.mk 3 7).equal_to (FrameId.mk 3 8) = false ∧
    (FrameId.mk 3 7).operator_eq (FrameId.mk 3 8) = false :=
  (equal_to_iff (FrameId.mk 3 7) (FrameId.mk 3 8)).2.2.2 (Or.inr (by decide))

/-! ## C15: hash and equality agree -/

/-- C15: identities that `equal_to` declares equal have the same hash, and
identities built from the same constructor arguments are equal and have the
same hash. -/
theorem hash_respects_equal_to (a b : FrameId) :
    (a.equal_to b = true → a.hash = b.hash) ∧
    (∀ fd1 p1 fd2 p2 : Int, fd1 = fd2 → p1 = p2 →
      (FrameId.mk fd1 p1).equal_to (FrameId.mk fd2 p2) = true ∧
      (FrameId.mk fd1 p1).hash = (FrameId.mk fd2 p2).hash) := by
  refine ⟨fun h => ?_, ?_⟩
  · rw [(equal_to_eq_true a b).1 h]
  · intro fd1 p1 fd2 p2 hfd hp
    subst hfd
    subst hp
    exact ⟨(equal_to_eq_true _ _).2 rfl, rfl⟩

/-- Instance of C15 on `FrameId(3, 7)`. -/
theorem hash_respects_equal_to_witness :
    (FrameId.mk 3 7).equal_to (FrameId.mk 3 7) = true ∧
    (FrameId.mk 3 7).hash = (FrameId.mk 3 7).hash :=
  ⟨by decide, (hash_respects_equal_to (FrameId.mk 3 7) (FrameId.mk 3 7)).1 (by decide)⟩

/-! ## C16: every latch serializes with every other latch -/

/-- C16, as stated, fails: after pin and read_latch(7) on a fresh frame,
`write_unlatch(0)` passes its checks (there is no exclusive holder and the
stored `write_locker_` is 0) and releases the lock, so identity 7 is recorded
as a shared holder while the lock is free; `read_latch(8)` then returns and
two shared holders are recorded, and `try_read_latch` by identity 9 returns
true while the reader 7 holds its latch. -/
theorem serialization_counterexample :
    run [Call.pin, Call.read_latch 7, Call.write_unlatch 0] fresh =
      Outcome.ok pinnedReaderUnlocked () ∧
    pinnedReaderUnlocked.lock_ = false ∧ pinnedReaderUnlocked.read_lockers_ ≠ ∅ ∧
    run [Call.pin, Call.read_latch 7, Call.write_unlatch 0, Call.read_latch 8] fresh =
      Outcome.ok { pinnedReaderUnlocked with lock_ := true, read_lockers_ := {8, 7} } () ∧
    ({8, 7} : Finset Int).card = 2 ∧
    try_read_latch 9 pinnedReaderUnlocked =
      Outcome.ok { pinnedReaderUnlocked with lock_ := true, read_lockers_ := {9, 7} } true :=
  ⟨by decide, by decide, by decide, rfl, by decide, rfl⟩

/-- C16, amended: start from a fresh frame (lock free, no exclusive holder, no
shared holder) and apply any sequence of calls that all return (each passes
its checks and runs to completion) and that contains no `write_unlatch(0)`.
In the state reached the lock is held exactly when a holder is recorded, and
either there is an exclusive holder and no shared holder, or there is no
exclusive holder and at most one shared holder.  In particular, while a
shared holder is recorded `read_latch` never returns for any identity, and
`try_read_latch` never returns true: it returns false, with the frame
untouched, whenever it passes its validation. -/
theorem latches_serialize (s0 : Frame) (cs : List Call) (s : Frame)
    (hlock : s0.lock_ = false) (hwo : s0.write_owner = none) (hro : s0.read_lockers_ = ∅)
    (hrun : run cs s0 = Outcome.ok s ()) (hzero : Call.write_unlatch 0 ∉ cs) :
    (s.lock_ = true ↔ (s.write_owner ≠ none ∨ s.read_lockers_ ≠ ∅)) ∧
    ((s.write_owner ≠ none ∧ s.read_lockers_ = ∅) ∨
      (s.write_owner = none ∧ s.read_lockers_.card ≤ 1)) ∧
    (s.read_lockers_ ≠ ∅ →
      (∀ x : Int, (read_latch x s).isOk = false) ∧
      (∀ (x : Int) (s1 : Frame) (r : Bool),
        try_read_latch x s = Outcome.ok s1 r → r = false ∧ s1 = s) ∧
      (∀ x : Int, (try_read_latch x s).isFatal = false →
        try_read_latch x s = Outcome.ok s false)) := by
  have hw0 : s0.write_locker_ = 0 := (write_owner_eq_none s0).1 hwo
  have h0 : s0.latch_serial := by
    refine ⟨⟨fun h => ?_, fun h => ?_⟩, Or.inr ⟨hw0, by simp [hro]⟩⟩
    · rw [hlock] at h
      cases h
    · rcases h with h | h
      · exact absurd hw0 h
      · exact absurd hro h
  have h : s.latch_serial :=
    run_induction Frame.latch_serial (fun c => c ≠ Call.write_unlatch 0)
      (fun c a b hc ha hab => latch_serial_step c a b hc ha hab) cs s0 s
      (fun c hc heq => hzero (heq ▸ hc)) h0 hrun
  obtain ⟨h1, h2⟩ := h
  simp only [ne_eq, write_owner_eq_none]
  refine ⟨h1, h2, fun hne => ?_⟩
  have hheld : s.lock_ = true := h1.2 (Or.inr hne)
  refine ⟨fun x => ?_, fun x s1 r hx => ?_, fun x hx => ?_⟩
  · rw [read_latch_cases]
    split_ifs <;> simp_all [Outcome.isOk]
  · obtain ⟨_, _, _, hr, hs1⟩ := (try_read_latch_eq_ok _ _ _ _).1 hx
    rw [hheld] at hr hs1
    exact ⟨by simpa using hr, by simpa using hs1⟩
  · rw [try_read_latch_cases] at hx ⊢
    split_ifs at hx ⊢ <;> simp_all [Outcome.isFatal]

/-- Instance of C16 (amended): after pin and read_latch(7) on a fresh frame the
lock is held and 7 is the only holder; `read_latch(8)` waits and
`try_read_latch` by identity 9 returns false. -/
theorem latches_serialize_witness :
    run [Call.pin, Call.read_latch 7] fresh = Outcome.ok pinnedReader () ∧
    pinnedReader.lock_ = true ∧
    (read_latch 8 pinnedReader).isOk = false ∧
    try_read_latch 9 pinnedReader = Outcome.ok pinnedReader false :=
  ⟨by decide, by decide,
    ((latches_serialize fresh [Call.pin, Call.read_latch 7] pinnedReader (by decide) (by decide)
      (by decide) (by decide) (by decide)).2.2 (by decide)).1 8,
    ((latches_serialize fresh [Call.pin, Call.read_latch 7] pinnedReader (by decide) (by decide)
      (by decide) (by decide) (by decide)).2.2 (by decide)).2.2 9 (by decide)⟩

/-! ## C17: the dirty flag -/

/-- C17: `mark_dirty` sets the dirty flag and `clear_dirty` clears it, and
neither changes another field.  Every other call (pin, unpin, write_latch,
write_unlatch, read_latch, try_read_latch, read_unlatch, access) leaves
`dirty()` as it was, whatever the outcome of the call, and so does every
sequence of such calls; a dirty frame stays dirty through every sequence of
calls that contains no `clear_dirty`. -/
theorem dirty_flag_frame (s : Frame) :
    (dirty (mark_dirty s) = true ∧ mark_dirty s = { s with dirty_ := true }) ∧
    (dirty (clear_dirty s) = false ∧ clear_dirty s = { s with dirty_ := false }) ∧
    (∀ t : Frame, t = mark_dirty s ∨ t = clear_dirty s →
      t.pin_count_ = s.pin_count_ ∧ t.acc_time_ = s.acc_time_ ∧ t.file_desc_ = s.file_desc_ ∧
      t.page_ = s.page_ ∧ t.lock_ = s.lock_ ∧ t.write_locker_ = s.write_locker_ ∧
      t.read_lockers_ = s.read_lockers_) ∧
    (dirty (pin s).frame = dirty s ∧ dirty (unpin s).frame = dirty s ∧
      (∀ x : Int, dirty (write_latch x s).frame = dirty s ∧
        dirty (write_unlatch x s).frame = dirty s ∧
        dirty (read_latch x s).frame = dirty s ∧
        dirty (try_read_latch x s).frame = dirty s ∧
        dirty (read_unlatch x s).frame = dirty s) ∧
      (∀ now : Nat, dirty (access now s) = dirty s)) ∧
    (∀ cs : List Call, Call.mark_dirty ∉ cs → Call.clear_dirty ∉ cs →
      dirty (run cs s).frame = dirty s) ∧
    (∀ cs : List Call, Call.clear_dirty ∉ cs →
      dirty (run cs (mark_dirty s)).frame = true) := by
  refine ⟨⟨rfl, rfl⟩, ⟨rfl, rfl⟩, ?_, ⟨rfl, ?_, fun x => ⟨?_, ?_, ?_, ?_, ?_⟩, fun _ => rfl⟩,
    fun cs h1 h2 => run_dirty cs s h1 h2, fun cs h2 => run_stays_dirty cs _ h2 rfl⟩
  · rintro t (rfl | rfl) <;> exact ⟨rfl, rfl, rfl, rfl, rfl, rfl, rfl⟩
  · have h := apply_dirty Call.unpin s (by decide) (by decide)
    rw [show Call.unpin.apply s = (unpin s).void from rfl, void_frame] at h
    exact h
  · exact apply_dirty (Call.write_latch x) s (fun h => by cases h) (fun h => by cases h)
  · exact apply_dirty (Call.write_unlatch x) s (fun h => by cases h) (fun h => by cases h)
  · exact apply_dirty (Call.read_latch x) s (fun h => by cases h) (fun h => by cases h)
  · have h := apply_dirty (Call.try_read_latch x) s (fun h => by cases h) (fun h => by cases h)
    rw [show (Call.try_read_latch x).apply s = (try_read_latch x s).void from rfl,
      void_frame] at h
    exact h
  · exact apply_dirty (Call.read_unlatch x) s (fun h => by cases h) (fun h => by cases h)

/-- Instance of C17: a dirty frame is still dirty after pin, read_latch(7),
access, read_unlatch(7), unpin. -/
theorem dirty_flag_frame_witness :
    dirty (run [Call.pin, Call.read_latch 7, Call.access 5, Call.read_unlatch 7, Call.unpin]
      (mark_dirty fresh)).frame = true :=
  (dirty_flag_frame fresh).2.2.2.2.2
    [Call.pin, Call.read_latch 7, Call.access 5, Call.read_unlatch 7, Call.unpin] (by decide)

/-! ## C18: identity 0 is the sentinel -/

/-- C18: on every frame without an exclusive holder (`write_locker_` is 0),
whatever its pin count, `write_latch(0)` and `read_latch(0)` fail their
validation: each is a fatal violation that leaves the frame untouched. -/
theorem zero_identity_cannot_latch (s : Frame) (h : s.write_owner = none) :
    s.write_locker_ = 0 ∧
    write_latch 0 s = Outcome.fatal s ∧ read_latch 0 s = Outcome.fatal s := by
  have hw : s.write_locker_ = 0 := (write_owner_eq_none s).1 h
  refine ⟨hw, write_latch_fatal_of_owner 0 s hw, ?_⟩
  rw [read_latch_cases]
  split_ifs <;> simp_all

/-- Instance of C18 on a frame pinned once and not latched. -/
theorem zero_identity_cannot_latch_witness :
    pinnedOnce.write_owner = none ∧
    write_latch 0 pinnedOnce = Outcome.fatal pinnedOnce ∧
    read_latch 0 pinnedOnce = Outcome.fatal pinnedOnce :=
  ⟨by decide, (zero_identity_cannot_latch pinnedOnce (by decide)).2⟩

/-! ## C19: the hash packs both fields -/

/-- C19: for a 32-bit file descriptor `fd` and a page number `p` with
0 <= p < 2^31, the hash of `FrameId(fd, p)` on a 64-bit `size_t` has `p` as its
low 32 bits and `fd` modulo 2^32 as its high 32 bits; both fields can be read
back from the hash, and another such identity with the same hash is the same
identity. -/
theorem hash_packs_fields (fd p : Int) (hfd : is_int fd) (hp0 : 0 ≤ p)
    (hp1 : p < 2147483648) :
    (((FrameId.mk fd p).hash % 4294967296 : Nat) : Int) = p ∧
    (((FrameId.mk fd p).hash / 4294967296 : Nat) : Int) = fd % 4294967296 ∧
    int_wrap (((FrameId.mk fd p).hash / 4294967296 : Nat) : Int) = fd ∧
    (FrameId.mk fd p).hash < 18446744073709551616 ∧
    (∀ fd1 p1 : Int, is_int fd1 → 0 ≤ p1 → p1 < 2147483648 →
      (FrameId.mk fd1 p1).hash = (FrameId.mk fd p).hash → fd1 = fd ∧ p1 = p) := by
  obtain ⟨hf1, hf2⟩ := hfd
  have key : ∀ (f q : Int), 0 ≤ q → q < 2147483648 →
      (FrameId.mk f q).hash = 4294967296 * (f % 4294967296).toNat + q.toNat :=
    fun f q h0 h1 => hash_of_nonneg_page (FrameId.mk f q) h0 (by show q < 4294967296; omega)
  have h := key fd p hp0 hp1
  refine ⟨?_, ?_, ?_, ?_, ?_⟩
  · rw [h]; omega
  · rw [h]; omega
  · rw [h]; unfold int_wrap; omega
  · rw [h]; omega
  · intro fd1 p1 ⟨g1, g2⟩ hq0 hq1 hh
    rw [h, key fd1 p1 hq0 hq1] at hh
    constructor <;> omega

/-- Instance of C19: the hash of `FrameId(3, 7)` is 3 * 2^32 + 7. -/
theorem hash_packs_fields_witness :
    is_int 3 ∧ (((FrameId.mk 3 7).hash % 4294967296 : Nat) : Int) = 7 ∧
    (((FrameId.mk 3 7).hash / 4294967296 : Nat) : Int) = 3 % 4294967296 :=
  ⟨by decide, (hash_packs_fields 3 7 (by decide) (by decide) (by decide)).1,
    (hash_packs_fields 3 7 (by decide) (by decide) (by decide)).2.1⟩

end Miniob
